import Mathlib

/-!
Verification of the AI-pipeline core of the Click-To-Assignment repository.

This file shallowly embeds the functions of `src/ai_pipeline/services.py`
and `src/ai_pipeline/utils.py` that carry the real logic:

* the hierarchical word-count allocator `_rebalance_structure_text`,
* the word-count hint extractor `_extract_word_count_hint`,
* the draft generator wrapper `generate_content`,
* the placeholder checkers `check_plagiarism` / `check_ai_content`,
* the status synchroniser `sync_job_status`,
* the sequential controller `run_marketing_pipeline`.

Python strings are modelled as Lean `String`/`List Char` (all inputs of
interest are ASCII), Python ints as `Int`/`Nat`, and the float arithmetic
of the allocator as exact `Rat` arithmetic with Python round-half-to-even.
The external OpenAI calls are modelled as oracle parameters.
-/

set_option maxRecDepth 20000

namespace Pipeline

/-! ### Character helpers (Python semantics, ASCII range) -/

/-- Python regex `\s` / `str.split()` whitespace set (ASCII). -/
def pyIsSpace (c : Char) : Bool :=
  c = ' ' || c = '\t' || c = '\n' || c = '\r' || c = '\x0b' || c = '\x0c'

/-- Python regex `\w` (ASCII range). -/
def pyIsWord (c : Char) : Bool :=
  c.isAlphanum || c = '_'

def lowerList (l : List Char) : List Char :=
  l.map Char.toLower

/-- Python `str.upper()` on ASCII strings. -/
def upperStr (s : String) : String :=
  String.mk (s.toList.map Char.toUpper)

/-- Does `l` start with the literal `pat`? -/
def startsWithList : List Char → List Char → Bool
  | [], _ => true
  | _ :: _, [] => false
  | p :: ps, c :: cs => p = c && startsWithList ps cs

/-- Python `pat in l` substring test. -/
def hasSubstr (pat : List Char) : List Char → Bool
  | [] => pat.isEmpty
  | c :: rest => startsWithList pat (c :: rest) || hasSubstr pat rest

/-- Python `sub in s` on strings. -/
def strContains (s sub : String) : Bool :=
  hasSubstr sub.toList s.toList

/-- Case-insensitive match of the (lowercase) literal `pat`, returning the rest. -/
def matchCI : List Char → List Char → Option (List Char)
  | [], l => some l
  | _ :: _, [] => none
  | p :: ps, c :: cs => if c.toLower = p then matchCI ps cs else none

def natOfDigits (ds : List Char) : Nat :=
  ds.foldl (fun a c => a * 10 + (c.toNat - 48)) 0

/-- Python truthy `or` on an optional string: `x or d`. -/
def pyOrStr (x : Option String) (d : String) : String :=
  match x with
  | some s => if s = "" then d else s
  | none => d

/-- Python truthiness of an optional string. -/
def pyTruthyS (x : Option String) : Bool :=
  match x with
  | some s => s ≠ ""
  | none => false

/-- Python `str.strip()`. -/
def pyStrip (s : String) : String :=
  String.mk (((s.toList.dropWhile pyIsSpace).reverse.dropWhile pyIsSpace).reverse)

/-- Helper for `pySplitWsChars`: accumulates the current word (reversed). -/
def splitWsGo : List Char → List Char → List (List Char)
  | [], acc => if acc.isEmpty then [] else [acc.reverse]
  | c :: rest, acc =>
    if pyIsSpace c then
      if acc.isEmpty then splitWsGo rest [] else acc.reverse :: splitWsGo rest []
    else splitWsGo rest (c :: acc)

/-- Python `str.split()` with no argument: split on whitespace runs, no empties. -/
def pySplitWsChars (l : List Char) : List (List Char) :=
  splitWsGo l []

/-- Python `len(s.split())`. -/
def countSplit (s : String) : Nat :=
  (pySplitWsChars s.toList).length

/-- Python `str.splitlines()` restricted to `\n` separators (the only ones produced
by the pipeline). -/
def splitOnNl : List Char → List (List Char)
  | [] => [[]]
  | '\n' :: rest => [] :: splitOnNl rest
  | c :: rest =>
    match splitOnNl rest with
    | [] => [[c]]
    | l :: ls => (c :: l) :: ls

def pySplitlines (s : String) : List String :=
  if s = "" then []
  else
    let parts := splitOnNl s.toList
    let parts := if parts.getLast? = some [] then parts.dropLast else parts
    parts.map String.mk

/-- Python `list.insert(n, x)` (clamps at the end). -/
def insertAt (n : Nat) (x : α) : List α → List α
  | l =>
    match n, l with
    | 0, l => x :: l
    | _ + 1, [] => [x]
    | m + 1, c :: rest => c :: insertAt m x rest

/-! ### Python `round` (half to even) on exact rationals -/

/-- Python `round(q)`: nearest integer, ties to even.  The source computes on
IEEE doubles; we model the same operation on the exact rational value.
The fractional part `q - ⌊q⌋ = rNum / den` is compared with `1/2` using
integer arithmetic only, so that the definition evaluates inside the kernel. -/
def pyFracNum (q : ℚ) : ℤ :=
  q.num - q.floor * (q.den : ℤ)

def pyRound (q : ℚ) : ℤ :=
  if 2 * pyFracNum q < (q.den : ℤ) then q.floor
  else if (q.den : ℤ) < 2 * pyFracNum q then q.floor + 1
  else if q.floor % 2 = 0 then q.floor else q.floor + 1

/-- Exact-value scaling `v * (target / s)` of the source, written with
`Rat.divInt` (the same rational number) so that it evaluates in the kernel. -/
def ratScale (v target s : Int) : ℚ :=
  Rat.divInt (v * target) s

/-! ### Association lists modelling Python dicts (insertion order preserved) -/

/-- A Python dict from section number to word count, in insertion order. -/
abbrev Dict := List (Nat × Int)

/-- Update the first entry carrying key `k` (Python `d[k] = v` on present key). -/
def updateFirst (k : Nat) (v : Int) : Dict → Dict
  | [] => []
  | (a, b) :: rest => if a = k then (k, v) :: rest else (a, b) :: updateFirst k v rest

/-- First value stored at `k` (Python `d.get(k)` / `d[k]`). -/
def dictLookup (k : Nat) : Dict → Option Int
  | [] => none
  | (a, b) :: rest => if a = k then some b else dictLookup k rest

/-- Python `d[k] = v`: overwrite in place, or append a fresh key. -/
def dictInsert (k : Nat) (v : Int) (d : Dict) : Dict :=
  if (dictLookup k d).isSome then updateFirst k v d else d ++ [(k, v)]

def dictKeys (d : Dict) : List Nat :=
  d.map Prod.fst

def dictSum (d : Dict) : Int :=
  (d.map Prod.snd).sum

/-- Python `max(d, key=d.get)`: the first entry attaining the maximal value. -/
def argmaxFirst : Dict → Option (Nat × Int)
  | [] => none
  | p :: rest =>
    match argmaxFirst rest with
    | none => some p
    | some q => if q.2 > p.2 then some q else some p

/-! ### The regex fragments used by `_rebalance_structure_text`
(`src/ai_pipeline/services.py`, lines 350-493), hand-compiled to scanners
with the same leftmost / greedy semantics. -/

/-- Find the closing `**` of `re.sub(r"\*\*(.*?)\*\*", ...)`: the nearest `**`
not separated by a newline (`.` does not match `\n`).  Returns the inner text
and the remainder after the closing marker. -/
def findBoldClose : List Char → Option (List Char × List Char)
  | '*' :: '*' :: rest => some ([], rest)
  | '\n' :: _ => none
  | [] => none
  | c :: rest =>
    match findBoldClose rest with
    | some (inner, after) => some (c :: inner, after)
    | none => none

/-- `re.sub(r"\*\*(.*?)\*\*", r"\1", text)`, fuel-guarded recursion. -/
def stripBoldGo : Nat → List Char → List Char
  | 0, l => l
  | _ + 1, [] => []
  | fuel + 1, '*' :: '*' :: rest =>
    match findBoldClose rest with
    | some (inner, after) => inner ++ stripBoldGo fuel after
    | none => '*' :: '*' :: stripBoldGo fuel rest
  | fuel + 1, c :: rest => c :: stripBoldGo fuel rest

def stripBold (s : String) : String :=
  String.mk (stripBoldGo s.toList.length s.toList)

/-- `re.search(r"(\d{1,6})\s*words?", line, re.IGNORECASE)` attempted at one
position: a digit run of length 1..6 (a longer run leaves a digit in front of
`\s*word`, which can never match), then `\s*`, then `word` case-insensitively. -/
def findCountAt (l : List Char) : Option Nat :=
  let ds := l.takeWhile Char.isDigit
  if ds.isEmpty || ds.length > 6 then none
  else
    match matchCI ['w', 'o', 'r', 'd'] ((l.drop ds.length).dropWhile pyIsSpace) with
    | some _ => some (natOfDigits ds)
    | none => none

def findCountChars : List Char → Option Nat
  | [] => none
  | c :: rest =>
    match findCountAt (c :: rest) with
    | some n => some n
    | none => findCountChars rest

/-- `_find_count` of the source. -/
def findCount (s : String) : Option Int :=
  (findCountChars s.toList).map (fun n => (n : Int))

/-- One-position attempt of
`re.sub(r"(\d{1,6})(\s*words?)", fr"{new_val}\2", line, count=1, re.IGNORECASE)`:
on success returns the whole rewritten remainder. -/
def replaceCountAt (newVal : Int) (l : List Char) : Option (List Char) :=
  let ds := l.takeWhile Char.isDigit
  if ds.isEmpty || ds.length > 6 then none
  else
    let rest := l.drop ds.length
    let ws := rest.takeWhile pyIsSpace
    match rest.drop ws.length with
    | w :: o :: r :: d :: tail =>
      if w.toLower = 'w' && o.toLower = 'o' && r.toLower = 'r' && d.toLower = 'd' then
        some ((toString newVal).toList ++ ws ++ w :: o :: r :: d :: tail)
      else none
    | _ => none

def replaceCountGo (newVal : Int) : List Char → List Char
  | [] => []
  | c :: rest =>
    match replaceCountAt newVal (c :: rest) with
    | some out => out
    | none => c :: replaceCountGo newVal rest

/-- `_replace_count` of the source. -/
def replaceCount (line : String) (newVal : Int) : String :=
  String.mk (replaceCountGo newVal line.toList)

/-- `re.compile(r'^\s*(\d+)\.\s').match(line)`. -/
def headingNum (s : String) : Option Nat :=
  let t := s.toList.dropWhile pyIsSpace
  let ds := t.takeWhile Char.isDigit
  if ds.isEmpty then none
  else
    match t.drop ds.length with
    | '.' :: c :: _ => if pyIsSpace c then some (natOfDigits ds) else none
    | _ => none

/-- `re.compile(r'^\s*(\d+)\.(\d+)\s').match(line)`. -/
def subheadingNums (s : String) : Option (Nat × Nat) :=
  let t := s.toList.dropWhile pyIsSpace
  let ds := t.takeWhile Char.isDigit
  if ds.isEmpty then none
  else
    match t.drop ds.length with
    | '.' :: rest2 =>
      let ds2 := rest2.takeWhile Char.isDigit
      if ds2.isEmpty then none
      else
        match rest2.drop ds2.length with
        | c :: _ => if pyIsSpace c then some (natOfDigits ds, natOfDigits ds2) else none
        | [] => none
    | _ => none

/-- `ignore_keys` of the source. -/
def ignoreKeys : List String :=
  ["cover", "cover page", "ai disclaimer", "disclaimer", "references", "reference",
   "bibliography"]

/-- `_is_ignored` of the source. -/
def isIgnoredLine (s : String) : Bool :=
  ignoreKeys.any (fun k => hasSubstr k.toList (lowerList s.toList))

/-- `'total word count' in ln.lower()`. -/
def isTotalLine (s : String) : Bool :=
  hasSubstr "total word count".toList (lowerList s.toList)

/-- One-position attempt of
`re.sub(r'(Total\s*Word\s*Count\s*[:\-]?\s*)(\d{1,6})', fr"\1{final_total}", ...)`
(case-insensitive): group 1 is kept verbatim, group 2 (at most six digits,
greedy) is replaced by the new total. -/
def totalReplAt (newTotal : Int) (l : List Char) : Option (List Char) :=
  match matchCI ['t', 'o', 't', 'a', 'l'] l with
  | none => none
  | some r1 =>
    match matchCI ['w', 'o', 'r', 'd'] (r1.dropWhile pyIsSpace) with
    | none => none
    | some r2 =>
      match matchCI ['c', 'o', 'u', 'n', 't'] (r2.dropWhile pyIsSpace) with
      | none => none
      | some r3 =>
        let r4 := r3.dropWhile pyIsSpace
        let r5 := match r4 with
          | ':' :: rest => rest
          | '-' :: rest => rest
          | _ => r4
        let r6 := r5.dropWhile pyIsSpace
        let ds := r6.takeWhile Char.isDigit
        if ds.isEmpty then none
        else
          let g2len := min 6 ds.length
          let g1 := l.take (l.length - r6.length)
          some (g1 ++ (toString newTotal).toList ++ r6.drop g2len)

def totalReplGo (newTotal : Int) : List Char → List Char
  | [] => []
  | c :: rest =>
    match totalReplAt newTotal (c :: rest) with
    | some out => out
    | none => c :: totalReplGo newTotal rest

def totalLineReplace (line : String) (newTotal : Int) : String :=
  String.mk (totalReplGo newTotal line.toList)

/-! ### Parsing the structure text (`_rebalance_structure_text`, lines 383-405) -/

/-- A parsed top-level heading: `(idx, num, count, line)` of the source. -/
structure MainEntry where
  idx : Nat
  num : Nat
  count : Int
  line : String
deriving DecidableEq, Repr

/-- A parsed sub-heading item `(idx, subnum, count)`. -/
abbrev SubItem := Nat × Nat × Int

/-- `subs.setdefault(pnum, []).append(item)`. -/
def subsAppend (k : Nat) (it : SubItem) : List (Nat × List SubItem) → List (Nat × List SubItem)
  | [] => [(k, [it])]
  | (a, its) :: rest =>
    if a = k then (a, its ++ [it]) :: rest else (a, its) :: subsAppend k it rest

def subsLookup (k : Nat) : List (Nat × List SubItem) → Option (List SubItem)
  | [] => none
  | (a, its) :: rest => if a = k then some its else subsLookup k rest

structure ParsedStructure where
  mains : List MainEntry
  subs : List (Nat × List SubItem)
deriving Repr

/-- One iteration of the parsing loop of `_rebalance_structure_text`. -/
def scanStep (totalIdx : Option Nat) (acc : ParsedStructure × Nat) (line : String) :
    ParsedStructure × Nat :=
  let ps := acc.1
  let idx := acc.2
  if some idx = totalIdx then (ps, idx + 1)
  else
    match findCount line with
    | none => (ps, idx + 1)
    | some count =>
      if isIgnoredLine line then (ps, idx + 1)
      else
        match subheadingNums line with
        | some pr =>
          ({ ps with subs := subsAppend pr.1 (idx, pr.2, count) ps.subs }, idx + 1)
        | none =>
          match headingNum line with
          | some num => ({ ps with mains := ps.mains ++ [⟨idx, num, count, line⟩] }, idx + 1)
          | none => (ps, idx + 1)

def parseStructLines (lines : List String) (totalIdx : Option Nat) : ParsedStructure :=
  (lines.foldl (scanStep totalIdx) (⟨[], []⟩, 0)).1

/-! ### The arithmetic core of `_rebalance_structure_text` (lines 410-476) -/

def childSum (items : List SubItem) : Int :=
  (items.map (fun it => it.2.2)).sum

/-- Fold the mains into a dict, one value per entry. -/
def buildWith (f : MainEntry → Int) (mains : List MainEntry) : Dict :=
  mains.foldl (fun mc e => dictInsert e.num (f e) mc) []

/-- The per-entry value of lines 412-417: the children sum when positive,
else the declared count. -/
def derivedCount (subs : List (Nat × List SubItem)) (e : MainEntry) : Int :=
  match subsLookup e.num subs with
  | some items => if childSum items > 0 then childSum items else e.count
  | none => e.count

def buildMainCounts (mains : List MainEntry) (subs : List (Nat × List SubItem)) : Dict :=
  buildWith (derivedCount subs) mains

/-- Lines 425-426: `max(1, round(v * scale))` applied to every main count,
with `scale = target / main_sum`. -/
def scaledOf (target : Int) (mc : Dict) : Dict :=
  mc.map (fun p => (p.1, max 1 (pyRound (ratScale p.2 target (dictSum mc)))))

/-- Lines 424-431: rescale the main counts to the target and push the rounding
drift into the first largest entry. -/
def scaleToTarget (target : Int) (mc : Dict) : Dict :=
  let scaled := scaledOf target mc
  let drift := target - dictSum scaled
  if drift = 0 then scaled
  else
    match argmaxFirst scaled with
    | some p => updateFirst p.1 (max 1 (p.2 + drift)) scaled
    | none => scaled

/-- `_find_main_by_name` (lines 434-438): the first main entry whose line
contains the fragment. -/
def findMainByName (frag : String) : List MainEntry → Option Nat
  | [] => none
  | e :: rest =>
    if hasSubstr frag.toList (lowerList e.line.toList) then some e.num
    else findMainByName frag rest

/-- `round(total_main * 0.10)` (lines 445-446), on the exact rational value. -/
def introTarget (totalMain : Int) : Int :=
  pyRound (ratScale totalMain 1 10)

/-- One forcing assignment of lines 448-451: `if n and n in main_counts:
main_counts[n] = max(1, t)`.  A section number of `0` is falsy in Python. -/
def optForce (t : Int) (o : Option Nat) (d : Dict) : Dict :=
  match o with
  | some c => if c ≠ 0 && (dictLookup c d).isSome then updateFirst c (max 1 t) d else d
  | none => d

/-- Lines 448-451: force Introduction / Conclusion to `max(1, target)`. -/
def forceTargets (iNum cNum : Option Nat) (t : Int) (mc : Dict) : Dict :=
  optForce t cNum (optForce t iNum mc)

/-- Line 453: keys different from both the intro and the conclusion number. -/
def remainingKeys (iNum cNum : Option Nat) (mc : Dict) : List Nat :=
  (dictKeys mc).filter (fun n => !(some n = iNum || some n = cNum))

/-- Lines 442-463: the Introduction/Conclusion enforcement step. -/
def forceIntroConcl (iNum cNum : Option Nat) (mc : Dict) : Dict :=
  let totalMain := dictSum mc
  if totalMain > 0 then
    let mcF := forceTargets iNum cNum (introTarget totalMain) mc
    let remaining := remainingKeys iNum cNum mcF
    if remaining.isEmpty then mcF
    else
      let drift := totalMain - dictSum mcF
      if drift = 0 then mcF
      else
        match argmaxFirst (mcF.filter (fun p => remaining.contains p.1)) with
        | some p => if p.1 ≠ 0 then updateFirst p.1 (max 1 (p.2 + drift)) mcF else mcF
        | none => mcF
  else mc

/-- First index attaining the maximal value
(`max(range(len(xs)), key=lambda i: xs[i])`), with that value. -/
def firstMaxIdx : List Int → Option (Nat × Int)
  | [] => none
  | v :: rest =>
    match firstMaxIdx rest with
    | none => some (0, v)
    | some (i, m) => if m > v then some (i + 1, m) else some (0, v)

/-- Lines 470-476: rescale children proportionally to the parent and push the
drift into the first largest child. -/
def rescaleItems (parentTarget : Int) (counts : List Int) : List Int :=
  let scaled :=
    counts.map (fun c => max 1 (pyRound (ratScale c parentTarget counts.sum)))
  let drift := parentTarget - scaled.sum
  if drift = 0 then scaled
  else
    match firstMaxIdx scaled with
    | some p => scaled.set p.1 (max 1 (p.2 + drift))
    | none => scaled

/-- Write rescaled child counts back into their lines (the `zip` of line 477). -/
def writeSubCounts (ls : List String) : List SubItem → List Int → List String
  | [], _ => ls
  | _, [] => ls
  | it :: its, v :: vs =>
    let ls2 := match ls.get? it.1 with
      | some ln => ls.set it.1 (replaceCount ln v)
      | none => ls
    writeSubCounts ls2 its vs

/-- `_rebalance_structure_text` (lines 350-493).  `expectedTotal` models the
`expected_total` argument restricted to its `int`/`None` uses. -/
def rebalanceStructureText (structText : String) (expectedTotal : Option Int) : String :=
  if structText = "" then structText
  else
    let s1 := stripBold structText
    let lines := pySplitlines s1
    let totalIdx := lines.findIdx? isTotalLine
    let ps := parseStructLines lines totalIdx
    if ps.mains.isEmpty then s1
    else
      let mc0 := buildMainCounts ps.mains ps.subs
      if dictSum mc0 ≤ 0 then s1
      else
        let mc1 := match expectedTotal with
          | some t => if t ≠ 0 then scaleToTarget t mc0 else mc0
          | none => mc0
        let iNum := findMainByName "introduction" ps.mains
        let cNum := findMainByName "conclusion" ps.mains
        let mc2 := forceIntroConcl iNum cNum mc1
        let lines1 := ps.subs.foldl (fun ls pr =>
          match dictLookup pr.1 mc2 with
          | none => ls
          | some pt =>
            if pt = 0 then ls
            else if childSum pr.2 ≤ 0 then ls
            else writeSubCounts ls pr.2 (rescaleItems pt (pr.2.map (fun it => it.2.2)))) lines
        let lines2 := ps.mains.foldl (fun ls e =>
          match dictLookup e.num mc2 with
          | some v =>
            match ls.get? e.idx with
            | some ln => ls.set e.idx (replaceCount ln v)
            | none => ls
          | none => ls) lines1
        let finalTotal := dictSum mc2
        let lines3 := match totalIdx with
          | some ti =>
            match lines2.get? ti with
            | some ln => lines2.set ti (totalLineReplace ln finalTotal)
            | none => lines2
          | none => insertAt 1 ("Total Word Count: " ++ toString finalTotal) lines2
        String.intercalate "\n" lines3


/-! ### `_extract_word_count_hint` (`services.py`, lines 289-319)
Each regex pattern is hand-compiled to a scanner with the same leftmost /
greedy / backtracking semantics (all patterns run case-insensitively). -/

/-- `re.sub(r"(?<=\d),(?=\d)", "", text)`: drop a comma between two digits. -/
def stripNumCommas : List Char → List Char
  | d :: ',' :: e :: rest =>
    if d.isDigit && e.isDigit then d :: stripNumCommas (e :: rest)
    else d :: stripNumCommas (',' :: e :: rest)
  | c :: rest => c :: stripNumCommas rest
  | [] => []

/-- The character class `[–—\-to]` (with `re.IGNORECASE`). -/
def isSepChar (c : Char) : Bool :=
  c = '–' || c = '—' || c = '-' || c.toLower = 't' || c.toLower = 'o'

/-- Greedy candidates for `\d{lo,hi}` at the head of `l`: the digit prefixes of
length `hi, hi-1, …, lo`, longest first, each with the remaining text. -/
def digitTakes (lo hi : Nat) (l : List Char) : List (List Char × List Char) :=
  let ds := l.takeWhile Char.isDigit
  let maxLen := min hi ds.length
  ((List.range (maxLen + 1)).reverse.filter (fun k => lo ≤ k)).map
    (fun k => (ds.take k, l.drop k))

/-- Greedy candidates `hi, …, 1` for `[–—\-to]{1,hi}` at the head of `l`. -/
def sepTakes (hi : Nat) (l : List Char) : List Nat :=
  let run := l.takeWhile isSepChar
  (List.range (min hi run.length + 1)).reverse.filter (fun k => 1 ≤ k)

/-- `words?\b`: literal `word`, optional greedy `s`, then a word boundary. -/
def wordsOptBoundary (l : List Char) : Bool :=
  match matchCI ['w', 'o', 'r', 'd'] l with
  | none => false
  | some rest =>
    match rest with
    | c :: rest2 =>
      if c.toLower = 's' then
        match rest2 with
        | [] => true
        | d :: _ => !pyIsWord d
      else !pyIsWord c
    | [] => true

/-- `\s*[:\-]?\s*(\d{lo,hi})` with the group greedy; returns the digit text. -/
def colonOptDigits (lo hi : Nat) (l : List Char) : Option (List Char) :=
  let r1 := l.dropWhile pyIsSpace
  let r2 := match r1 with
    | ':' :: rest => rest.dropWhile pyIsSpace
    | '-' :: rest => rest.dropWhile pyIsSpace
    | _ => r1
  let ds := r2.takeWhile Char.isDigit
  if ds.length < lo then none else some (ds.take (min hi ds.length))

/-- Pattern 1: `(\d{2,5})\s*-\s*(\d{2,5})\s*words?`. -/
def p1At (l : List Char) : Option (String × Option String) :=
  (digitTakes 2 5 l).findSome? fun pr =>
    match pr.2.dropWhile pyIsSpace with
    | '-' :: r2 =>
      (digitTakes 2 5 (r2.dropWhile pyIsSpace)).findSome? fun pr2 =>
        match matchCI ['w', 'o', 'r', 'd'] (pr2.2.dropWhile pyIsSpace) with
        | some _ => some (String.mk pr.1, some (String.mk pr2.1))
        | none => none
    | _ => none

/-- Pattern 2: `(\d{2,5})\s*[–—\-to]{1,3}\s*(\d{2,5})\s*words?`. -/
def p2At (l : List Char) : Option (String × Option String) :=
  (digitTakes 2 5 l).findSome? fun pr =>
    let r1 := pr.2.dropWhile pyIsSpace
    (sepTakes 3 r1).findSome? fun k =>
      (digitTakes 2 5 ((r1.drop k).dropWhile pyIsSpace)).findSome? fun pr2 =>
        match matchCI ['w', 'o', 'r', 'd'] (pr2.2.dropWhile pyIsSpace) with
        | some _ => some (String.mk pr.1, some (String.mk pr2.1))
        | none => none

/-- Pattern 3: `(\d{2,5})\s*words?\b`. -/
def p3At (l : List Char) : Option (String × Option String) :=
  (digitTakes 2 5 l).findSome? fun pr =>
    if wordsOptBoundary (pr.2.dropWhile pyIsSpace) then some (String.mk pr.1, none) else none

/-- Pattern 4: `words?\s*[:\-]?\s*(\d{2,5})`. -/
def p4At (l : List Char) : Option (String × Option String) :=
  match matchCI ['w', 'o', 'r', 'd'] l with
  | none => none
  | some r =>
    let attempt := fun (r2 : List Char) =>
      (colonOptDigits 2 5 r2).map (fun ds => (String.mk ds, (none : Option String)))
    match r with
    | c :: rest =>
      if c.toLower = 's' then
        match attempt rest with
        | some a => some a
        | none => attempt r
      else attempt r
    | [] => none

/-- Pattern 5: `word\s*count\s*[:\-]?\s*(\d{2,5})`. -/
def p5At (l : List Char) : Option (String × Option String) :=
  match matchCI ['w', 'o', 'r', 'd'] l with
  | none => none
  | some r1 =>
    match matchCI ['c', 'o', 'u', 'n', 't'] (r1.dropWhile pyIsSpace) with
    | none => none
    | some r2 => (colonOptDigits 2 5 r2).map (fun ds => (String.mk ds, none))

/-- Pattern 6 body: `wc\s*[:\-]?\s*(\d{2,5})\b` (the leading `\b` is checked by
the scanner). -/
def p6At (l : List Char) : Option (String × Option String) :=
  match matchCI ['w', 'c'] l with
  | none => none
  | some r =>
    let r1 := r.dropWhile pyIsSpace
    let r2 := match r1 with
      | ':' :: rest => rest.dropWhile pyIsSpace
      | '-' :: rest => rest.dropWhile pyIsSpace
      | _ => r1
    (digitTakes 2 5 r2).findSome? fun pr =>
      match pr.2 with
      | [] => some (String.mk pr.1, none)
      | d :: _ => if pyIsWord d then none else some (String.mk pr.1, none)

/-- Pattern 7: `word\s*limit\s*(?:of\s*)?[:\-]?\s*(\d{2,5})(?:\s*[–—\-to]{1,3}\s*(\d{2,5}))?`. -/
def p7At (l : List Char) : Option (String × Option String) :=
  match matchCI ['w', 'o', 'r', 'd'] l with
  | none => none
  | some r1 =>
    match matchCI ['l', 'i', 'm', 'i', 't'] (r1.dropWhile pyIsSpace) with
    | none => none
    | some r2 =>
      let afterLimit := r2.dropWhile pyIsSpace
      let attempt := fun (r3 : List Char) =>
        let r4 := match r3 with
          | ':' :: rest => rest.dropWhile pyIsSpace
          | '-' :: rest => rest.dropWhile pyIsSpace
          | _ => r3
        let ds := r4.takeWhile Char.isDigit
        if ds.length < 2 then none
        else
          let g1 := ds.take (min 5 ds.length)
          let rest := r4.drop g1.length
          let r5 := rest.dropWhile pyIsSpace
          let g2 := (sepTakes 3 r5).findSome? fun k =>
            (digitTakes 2 5 ((r5.drop k).dropWhile pyIsSpace)).findSome? fun pr2 =>
              some (String.mk pr2.1)
          some (String.mk g1, g2)
      match matchCI ['o', 'f'] afterLimit with
      | some rOf =>
        match attempt (rOf.dropWhile pyIsSpace) with
        | some a => some a
        | none => attempt afterLimit
      | none => attempt afterLimit

/-- The page pattern: `(\d{1,3})(?:\s*[–—\-to]{1,3}\s*(\d{1,3}))?\s*pages?`. -/
def pageAt (l : List Char) : Option (Nat × Option Nat) :=
  (digitTakes 1 3 l).findSome? fun pr =>
    let withOpt :=
      let r1 := pr.2.dropWhile pyIsSpace
      (sepTakes 3 r1).findSome? fun k =>
        (digitTakes 1 3 ((r1.drop k).dropWhile pyIsSpace)).findSome? fun pr2 =>
          match matchCI ['p', 'a', 'g', 'e'] (pr2.2.dropWhile pyIsSpace) with
          | some _ => some (natOfDigits pr.1, some (natOfDigits pr2.1))
          | none => none
    match withOpt with
    | some res => some res
    | none =>
      match matchCI ['p', 'a', 'g', 'e'] (pr.2.dropWhile pyIsSpace) with
      | some _ => some (natOfDigits pr.1, none)
      | none => none

/-- Leftmost application of a one-position matcher. -/
def scanPat (f : List Char → Option α) : List Char → Option α
  | [] => none
  | c :: rest =>
    match f (c :: rest) with
    | some a => some a
    | none => scanPat f rest

/-- Leftmost application of `p6At` honouring the leading `\b`. -/
def scanP6 (prev : Option Char) : List Char → Option (String × Option String)
  | [] => none
  | c :: rest =>
    let okBoundary := match prev with
      | none => true
      | some d => !pyIsWord d
    match (if okBoundary then p6At (c :: rest) else none) with
    | some a => some a
    | none => scanP6 (some c) rest

/-- `if m.lastindex >= 2 and m.group(2): "g1-g2" else g1`. -/
def fmtGroups (pr : String × Option String) : String :=
  match pr.2 with
  | some g2 => pr.1 ++ "-" ++ g2
  | none => pr.1

/-- `_extract_word_count_hint` of the source. -/
def extractWordCountHint (text : String) : Option String :=
  let t := stripNumCommas text.toList
  ((scanPat p1At t).map fmtGroups) <|>
  ((scanPat p2At t).map fmtGroups) <|>
  ((scanPat p3At t).map fmtGroups) <|>
  ((scanPat p4At t).map fmtGroups) <|>
  ((scanPat p5At t).map fmtGroups) <|>
  ((scanP6 none t).map fmtGroups) <|>
  ((scanPat p7At t).map fmtGroups) <|>
  ((scanPat pageAt t).map (fun pr =>
    match pr.2 with
    | some n2 => toString (pr.1 * 275) ++ "-" ++ toString (n2 * 275)
    | none => toString (pr.1 * 275)))

/-! ### `generate_content` (`services.py`, lines 566-645) -/

/-- One-position attempt of `re.search(r"Total\s*Word\s*Count\s*[:\-]?\s*(\d{2,6})")`. -/
def totalParseAt (l : List Char) : Option Nat :=
  match matchCI ['t', 'o', 't', 'a', 'l'] l with
  | none => none
  | some r1 =>
    match matchCI ['w', 'o', 'r', 'd'] (r1.dropWhile pyIsSpace) with
    | none => none
    | some r2 =>
      match matchCI ['c', 'o', 'u', 'n', 't'] (r2.dropWhile pyIsSpace) with
      | none => none
      | some r3 => (colonOptDigits 2 6 r3).map natOfDigits

/-- The heading prefix `^\s*\d+\.\s` of the fallback pattern; returns the rest. -/
def headingRest (s : String) : Option (List Char) :=
  let t := s.toList.dropWhile pyIsSpace
  let ds := t.takeWhile Char.isDigit
  if ds.isEmpty then none
  else
    match t.drop ds.length with
    | '.' :: c :: rest => if pyIsSpace c then some rest else none
    | _ => none

/-- `(\d{2,6})\s*words?` searched left to right (the `.*?` of the pattern). -/
def findCount26At (l : List Char) : Option Nat :=
  let ds := l.takeWhile Char.isDigit
  if ds.length < 2 || ds.length > 6 then none
  else
    match matchCI ['w', 'o', 'r', 'd'] ((l.drop ds.length).dropWhile pyIsSpace) with
    | some _ => some (natOfDigits ds)
    | none => none

def findCount26 : List Char → Option Nat
  | [] => none
  | c :: rest =>
    match findCount26At (c :: rest) with
    | some n => some n
    | none => findCount26 rest

/-- `_parse_total_from_structure` (lines 570-588). -/
def parseTotalFromStructure (s : String) : Option Int :=
  match scanPat totalParseAt s.toList with
  | some n => some (n : Int)
  | none =>
    let counts := (pySplitlines s).filterMap fun ln =>
      match headingRest ln with
      | some rest => findCount26 rest
      | none => none
    if counts.isEmpty then none
    else some ((counts.map (fun n => (n : Int))).sum)

/-- `re.sub(r'^\s*#+\s*', '', line)`. -/
def stripLeadingHashes (l : List Char) : List Char :=
  let t := l.dropWhile pyIsSpace
  match t with
  | '#' :: _ => (t.dropWhile (fun c => c = '#')).dropWhile pyIsSpace
  | _ => l

/-- `line.replace('**', '')`. -/
def removeDoubleStar : List Char → List Char
  | '*' :: '*' :: rest => removeDoubleStar rest
  | c :: rest => c :: removeDoubleStar rest
  | [] => []

/-- `_strip_markdown` (lines 590-598). -/
def stripMarkdown (s : String) : String :=
  String.intercalate "\n"
    ((pySplitlines s).map (fun ln => String.mk (removeDoubleStar (stripLeadingHashes ln.toList))))

/-- Does `re.split(r'\n\s*references\s*\n', ...)` match at this position? -/
def refSplitAt (l : List Char) : Bool :=
  match l with
  | '\n' :: rest =>
    (match matchCI ['r', 'e', 'f', 'e', 'r', 'e', 'n', 'c', 'e', 's'] (rest.dropWhile pyIsSpace) with
    | some r2 => (r2.takeWhile pyIsSpace).any (fun c => c = '\n')
    | none => false)
  | _ => false

def stripRefsGo : List Char → List Char
  | [] => []
  | c :: rest => if refSplitAt (c :: rest) then [] else c :: stripRefsGo rest

/-- `_strip_references_section` (lines 600-607): text before the first match,
stripped. -/
def stripRefsSection (s : String) : String :=
  pyStrip (String.mk (stripRefsGo s.toList))

/-- `\w+` run count: `len(re.findall(r"\w+", cleaned))`. -/
def countRunsGo : List Char → Bool → Nat
  | [], _ => 0
  | c :: rest, inRun =>
    if pyIsWord c then (if inRun then 0 else 1) + countRunsGo rest true
    else countRunsGo rest false

def countWordRuns (s : String) : Nat :=
  countRunsGo s.toList false

/-- `cleaned = _strip_references_section(_strip_markdown(response_text.strip()))`. -/
def contentClean (raw : String) : String :=
  stripRefsSection (stripMarkdown (pyStrip raw))

def hashPresent (s : String) : Bool :=
  s.toList.any (fun c => c = '#')

/-- The retry condition of `generate_content` (lines 624-631): the word count
is outside `[0.98 * target, 1.02 * target]` (stated in exact integer
arithmetic: `wc < 0.98 t ↔ 100 wc < 98 t`), or a `#` survived cleaning. -/
def contentNeedsRetry (targetTotal : Option Int) (cleaned : String) : Bool :=
  let wcBad := match targetTotal with
    | some t =>
      if t ≠ 0 then
        let wc : Int := (countWordRuns cleaned : Int)
        100 * wc < 98 * t || 100 * wc > 102 * t
      else false
    | none => false
  wcBad || hashPresent cleaned

/-- `generate_content` (lines 566-645).  `r1`/`r2` are the two possible
responses of the generation client (`None` models an exception, the empty
string an empty answer). -/
def generateContent (structText : String) (r1 r2 : Option String) :
    Option String × Option String :=
  if structText = "" then (none, some "Job Structure text is required.")
  else
    let targetTotal := parseTotalFromStructure structText
    match r1 with
    | none => (none, some "Failed to generate academic content.")
    | some s1 =>
      if s1 = "" then (none, some "Failed to generate academic content.")
      else
        let cleaned := contentClean s1
        if contentNeedsRetry targetTotal cleaned then
          match r2 with
          | some s2 => if s2 = "" then (some cleaned, none) else (some (contentClean s2), none)
          | none => (some cleaned, none)
        else (some cleaned, none)

/-! ### `check_plagiarism` / `check_ai_content` (`services.py`, lines 718-745) -/

structure PlagResult where
  report : String
  similarity_percentage : ℚ
deriving DecidableEq

structure AiResult where
  report : String
  ai_percentage : ℚ
deriving DecidableEq

def plagReportText (n : Nat) : String :=
  "Plagiarism Report\n\nThis is a placeholder report. Integrate with a real plagiarism service.\nTotal Word Count: "
    ++ toString n ++ "\nSimilarity Percentage: 5.2%\nStatus: PASSED\n"

def checkPlagiarism (contentText : String) : Option PlagResult × Option String :=
  if contentText = "" then (none, some "Content text is required for plagiarism check.")
  else
    (some { report := plagReportText (countSplit contentText),
            similarity_percentage := Rat.divInt 26 5 }, none)

def aiReportText (n : Nat) : String :=
  "AI Detection Report\n\nThis is a placeholder report. Integrate with a real AI-content detection API.\nTotal Word Count: "
    ++ toString n ++ "\nAI-Generated Content: 12.5%\nStatus: ACCEPTABLE\n"

def checkAiContent (contentText : String) : Option AiResult × Option String :=
  if contentText = "" then (none, some "Content text is required for AI detection check.")
  else
    (some { report := aiReportText (countSplit contentText),
            ai_percentage := Rat.divInt 25 2 }, none)

/-! ### The job / artifact data model (`ai_pipeline/models.py`, `jobs/models.py`)
Only the fields read or written by `utils.py` are modelled.  The Django
`related_name` aliases (`Job.summary`, `Job.job_structure`,
`Job.generated_content`, `Job.plagiarism_report`) collapse to plain record
fields here.  Timestamps become an abstract `now : Nat` tick and users are
identified by name. -/

structure JobSummaryArt where
  topic : String
  word_count : Int
  reference_style : String
  writing_style : String
  summary_text : String
  regeneration_count : Nat
  is_approved : Bool
  approved_by : Option String
  approved_at : Option Nat
deriving DecidableEq

structure JobStructureArt where
  structure_text : String
  total_word_count : Int
  regeneration_count : Nat
  is_approved : Bool
  approved_by : Option String
  approved_at : Option Nat
deriving DecidableEq

structure GeneratedContentArt where
  content_text : String
  regeneration_count : Nat
  is_approved : Bool
  approved_by : Option String
  approved_at : Option Nat
deriving DecidableEq

structure ReferencesArt where
  reference_list : String
  citation_list : String
  regeneration_count : Nat
  is_approved : Bool
  approved_by : Option String
  approved_at : Option Nat
deriving DecidableEq

structure FullContentArt where
  content_with_citations : String
  final_word_count : Nat
  regeneration_count : Nat
  is_approved : Bool
  approved_by : Option String
  approved_at : Option Nat
deriving DecidableEq

structure PlagiarismReportArt where
  report_data : String
  similarity_percentage : ℚ
  generation_count : Nat
  is_approved : Bool
  approved_by : Option String
  approved_at : Option Nat
deriving DecidableEq

structure AIReportArt where
  report_data : String
  ai_percentage : ℚ
  generation_count : Nat
  is_approved : Bool
  approved_by : Option String
  approved_at : Option Nat
deriving DecidableEq

/-- The persisted (database) state of a job and its pipeline artifacts. -/
structure MarketingJob where
  job_id : String
  status : String
  is_approved : Bool
  summary : Option JobSummaryArt
  job_structure : Option JobStructureArt
  generated_content : Option GeneratedContentArt
  references : Option ReferencesArt
  full_content : Option FullContentArt
  plag_report : Option PlagiarismReportArt
  ai_report : Option AIReportArt
deriving DecidableEq

/-! ### `sync_job_status` (`utils.py`, lines 34-101) -/

def STATUS_SEQUENCE : List String :=
  ["PENDING", "IN_PROGRESS", "JOB_SUMMARY", "JOB_STRUCTURE", "CONTENT", "REFERENCES",
   "FULL_CONTENT", "PLAGIARISM_REPORT", "AI_REPORT", "REWORK", "REWORK_COMPLETED",
   "COMPLETED", "APPROVED"]

/-- `STATUS_RANK.get(s.upper(), -1)`. -/
def statusRank (s : String) : Int :=
  match STATUS_SEQUENCE.findIdx? (fun t => t = upperStr s) with
  | some i => (i : Int)
  | none => -1

/-- `_max_status` (lines 65-69). -/
def maxStatus (current candidate : String) : String :=
  if statusRank current < statusRank candidate then candidate else current

def statusMem (s : String) : Bool :=
  STATUS_SEQUENCE.contains s

/-- The `(attr_name, status)` walk of `PIPELINE_STATUS_ORDER` (lines 34-42),
resolved against the artifact approval flags. -/
def approvedPairs (job : MarketingJob) : List (Bool × String) :=
  [((match job.summary with | some a => a.is_approved | none => false), "JOB_SUMMARY"),
   ((match job.job_structure with | some a => a.is_approved | none => false), "JOB_STRUCTURE"),
   ((match job.generated_content with | some a => a.is_approved | none => false), "CONTENT"),
   ((match job.references with | some a => a.is_approved | none => false), "REFERENCES"),
   ((match job.full_content with | some a => a.is_approved | none => false), "FULL_CONTENT"),
   ((match job.plag_report with | some a => a.is_approved | none => false), "PLAGIARISM_REPORT"),
   ((match job.ai_report with | some a => a.is_approved | none => false), "AI_REPORT")]

def advanceLoop (base : String) : List (Bool × String) → String
  | [] => base
  | p :: rest => advanceLoop (if p.1 then maxStatus base p.2 else base) rest

/-- `sync_job_status(job, save=True)` (lines 72-101): returns the saved job and
the returned status string. -/
def syncJobStatus (job : MarketingJob) : MarketingJob × String :=
  let statusUpper := upperStr (if job.status = "" then "PENDING" else job.status)
  if statusUpper = "REJECTED" then (job, job.status)
  else
    let base := if statusMem statusUpper then statusUpper else "PENDING"
    let ns0 := advanceLoop base (approvedPairs job)
    let ns := if job.is_approved then "APPROVED" else ns0
    if job.status ≠ ns then ({ job with status := ns }, ns) else (job, ns)

/-- An arbitrary change of the artifact rows and approval flags between two
`sync_job_status` calls (the status field itself is owned by the controller). -/
structure ApprovalEnv where
  summary : Option JobSummaryArt
  job_structure : Option JobStructureArt
  generated_content : Option GeneratedContentArt
  references : Option ReferencesArt
  full_content : Option FullContentArt
  plag_report : Option PlagiarismReportArt
  ai_report : Option AIReportArt
  is_approved : Bool
deriving DecidableEq

def applyEnv (e : ApprovalEnv) (j : MarketingJob) : MarketingJob :=
  { j with
    summary := e.summary
    job_structure := e.job_structure
    generated_content := e.generated_content
    references := e.references
    full_content := e.full_content
    plag_report := e.plag_report
    ai_report := e.ai_report
    is_approved := e.is_approved }

/-- A sequence of `sync_job_status` calls interleaved with arbitrary
artifact-approval changes. -/
def runSyncs (j : MarketingJob) : List ApprovalEnv → MarketingJob
  | [] => j
  | e :: rest => runSyncs (syncJobStatus (applyEnv e j)).1 rest

/-! ### `run_marketing_pipeline` (`utils.py`, lines 104-336)
The five OpenAI-backed stage generators are oracle parameters (each, per
run, is called at most once); `check_plagiarism` / `check_ai_content` are the
embedded pure functions above.  The job value threads the *saved* database
state: mutations of unsaved Django instances that are dropped on failure do
not appear. -/

/-- `get_regeneration_usage` (lines 104-127): the highest
regeneration/generation count across the seven pipeline artifacts. -/
def getRegenerationUsage (job : MarketingJob) : Nat :=
  let counts : List Nat :=
    (match job.summary with | some a => [a.regeneration_count] | none => []) ++
    (match job.job_structure with | some a => [a.regeneration_count] | none => []) ++
    (match job.generated_content with | some a => [a.regeneration_count] | none => []) ++
    (match job.references with | some a => [a.regeneration_count] | none => []) ++
    (match job.full_content with | some a => [a.regeneration_count] | none => []) ++
    (match job.plag_report with | some a => [a.generation_count] | none => []) ++
    (match job.ai_report with | some a => [a.generation_count] | none => [])
  counts.foldl max 0

/-- The `parse_job_summary` output dictionary as consumed by the pipeline
(the `int()` conversion of `word_count` is the identity on this model). -/
structure SummaryData where
  topic : String
  word_count : Int
  reference_style : String
  writing_style : String
  summary : String
deriving DecidableEq

structure RefData where
  reference_list : String
  citation_list : String
deriving DecidableEq

structure PipelineResult where
  success : Bool
  results : List String
  error : Option String
deriving DecidableEq

def pipelineFail (results : List String) (msg : String) (job : MarketingJob) :
    PipelineResult × MarketingJob :=
  (⟨false, results, some msg⟩, job)

/-- The Job Summary artifact as saved by lines 163-178. -/
def mkSummaryArt (prev : Option JobSummaryArt) (d : SummaryData) (actor : String) (now : Nat) :
    JobSummaryArt :=
  { topic := pyOrStr (some d.topic) ""
    word_count := d.word_count
    reference_style := pyOrStr (some d.reference_style) "Harvard"
    writing_style := pyOrStr (some d.writing_style) "Academic"
    summary_text := pyOrStr (some d.summary) ""
    regeneration_count := match prev with | some a => a.regeneration_count + 1 | none => 0
    is_approved := true
    approved_by := some actor
    approved_at := some now }

/-- The Job Structure artifact as saved by lines 203-208. -/
def mkStructureArt (prev : Option JobStructureArt) (st : String) (wc : Int)
    (actor : String) (now : Nat) : JobStructureArt :=
  { structure_text := st
    total_word_count := wc
    regeneration_count := match prev with | some a => a.regeneration_count + 1 | none => 0
    is_approved := true
    approved_by := some actor
    approved_at := some now }

/-- The Content artifact as saved by lines 226-230. -/
def mkContentArt (prev : Option GeneratedContentArt) (ct : String)
    (actor : String) (now : Nat) : GeneratedContentArt :=
  { content_text := ct
    regeneration_count := match prev with | some a => a.regeneration_count + 1 | none => 0
    is_approved := true
    approved_by := some actor
    approved_at := some now }

def mkReferencesArt (prev : Option ReferencesArt) (rd : RefData)
    (actor : String) (now : Nat) : ReferencesArt :=
  { reference_list := rd.reference_list
    citation_list := rd.citation_list
    regeneration_count := match prev with | some a => a.regeneration_count + 1 | none => 0
    is_approved := true
    approved_by := some actor
    approved_at := some now }

/-- The Full Content artifact as saved by lines 282-284: the approval fields
are not touched (a fresh row keeps the model defaults). -/
def mkFullArt (prev : Option FullContentArt) (ft : String) : FullContentArt :=
  { content_with_citations := ft
    final_word_count := countSplit ft
    regeneration_count := match prev with | some a => a.regeneration_count + 1 | none => 0
    is_approved := match prev with | some a => a.is_approved | none => false
    approved_by := match prev with | some a => a.approved_by | none => none
    approved_at := match prev with | some a => a.approved_at | none => none }

def mkPlagArt (prev : Option PlagiarismReportArt) (pr : PlagResult)
    (actor : String) (now : Nat) : PlagiarismReportArt :=
  { report_data := pr.report
    similarity_percentage := pr.similarity_percentage
    generation_count := match prev with | some a => a.generation_count + 1 | none => 0
    is_approved := true
    approved_by := some actor
    approved_at := some now }

def mkAiArt (prev : Option AIReportArt) (ar : AiResult)
    (actor : String) (now : Nat) : AIReportArt :=
  { report_data := ar.report
    ai_percentage := ar.ai_percentage
    generation_count := match prev with | some a => a.generation_count + 1 | none => 0
    is_approved := true
    approved_by := some actor
    approved_at := some now }

def canRegenS (o : Option JobSummaryArt) : Bool :=
  match o with | some a => a.regeneration_count < 3 | none => true

def canRegenSt (o : Option JobStructureArt) : Bool :=
  match o with | some a => a.regeneration_count < 3 | none => true

def canRegenC (o : Option GeneratedContentArt) : Bool :=
  match o with | some a => a.regeneration_count < 3 | none => true

def canRegenR (o : Option ReferencesArt) : Bool :=
  match o with | some a => a.regeneration_count < 3 | none => true

def canRegenF (o : Option FullContentArt) : Bool :=
  match o with | some a => a.regeneration_count < 3 | none => true

def canRegenP (o : Option PlagiarismReportArt) : Bool :=
  match o with | some a => a.generation_count < 3 | none => true

def canRegenA (o : Option AIReportArt) : Bool :=
  match o with | some a => a.generation_count < 3 | none => true

/-- `run_marketing_pipeline(job, actor)` (lines 130-336). -/
def runMarketingPipeline (job : MarketingJob) (actor : String) (now : Nat)
    (rSummary : Option SummaryData × Option String)
    (rStructure : Option String × Option String)
    (rContent : Option String × Option String)
    (rRefs : Option RefData × Option String)
    (rFull : Option String × Option String) :
    PipelineResult × MarketingJob :=
  if getRegenerationUsage job ≥ 3 then
    pipelineFail [] "Generation limit reached (3 regenerations used)." job
  else if ¬ canRegenS job.summary then
    pipelineFail [] "Generation limit reached for Job Summary." job
  else
    match rSummary.1 with
    | none => pipelineFail [] (pyOrStr rSummary.2 "Failed to generate Job Summary.") job
    | some d =>
      if pyTruthyS rSummary.2 then
        pipelineFail [] (pyOrStr rSummary.2 "Failed to generate Job Summary.") job
      else
        let sArt := mkSummaryArt job.summary d actor now
        let job1 := { job with summary := some sArt, status := "JOB_SUMMARY" }
        let results1 := ["Job Summary generated"]
        if ¬ canRegenSt job.job_structure then
          pipelineFail results1 "Generation limit reached for Job Structure." job1
        else
          match rStructure.1 with
          | none => pipelineFail results1 (pyOrStr rStructure.2 "Failed to generate Job Structure.") job1
          | some st =>
            if pyTruthyS rStructure.2 || st = "" then
              pipelineFail results1 (pyOrStr rStructure.2 "Failed to generate Job Structure.") job1
            else
              let stArt := mkStructureArt job.job_structure st sArt.word_count actor now
              let job2 := { job1 with job_structure := some stArt, status := "JOB_STRUCTURE" }
              let results2 := results1 ++ ["Job Structure generated"]
              if ¬ canRegenC job.generated_content then
                pipelineFail results2 "Generation limit reached for Content." job2
              else
                match rContent.1 with
                | none => pipelineFail results2 (pyOrStr rContent.2 "Failed to generate Content.") job2
                | some ct =>
                  if pyTruthyS rContent.2 || ct = "" then
                    pipelineFail results2 (pyOrStr rContent.2 "Failed to generate Content.") job2
                  else
                    let cArt := mkContentArt job.generated_content ct actor now
                    let job3 := { job2 with generated_content := some cArt, status := "CONTENT" }
                    let results3 := results2 ++ ["Content generated"]
                    if ¬ canRegenR job.references then
                      pipelineFail results3 "Generation limit reached for References." job3
                    else
                      match rRefs.1 with
                      | none => pipelineFail results3 (pyOrStr rRefs.2 "Failed to generate References.") job3
                      | some rd =>
                        if pyTruthyS rRefs.2 then
                          pipelineFail results3 (pyOrStr rRefs.2 "Failed to generate References.") job3
                        else
                          let rArt := mkReferencesArt job.references rd actor now
                          let job4 := { job3 with references := some rArt, status := "REFERENCES" }
                          let results4 := results3 ++ ["References generated"]
                          if ¬ canRegenF job.full_content then
                            pipelineFail results4 "Generation limit reached for Full Content." job4
                          else
                            match rFull.1 with
                            | none => pipelineFail results4 (pyOrStr rFull.2 "Failed to generate Full Content.") job4
                            | some ft =>
                              if pyTruthyS rFull.2 || ft = "" then
                                pipelineFail results4 (pyOrStr rFull.2 "Failed to generate Full Content.") job4
                              else
                                let fArt := mkFullArt job.full_content ft
                                let job5 := { job4 with full_content := some fArt, status := "FULL_CONTENT" }
                                let results5 := results4 ++ ["Full Content generated"]
                                if ¬ canRegenP job.plag_report then
                                  pipelineFail results5 "Generation limit reached for Plagiarism Report." job5
                                else
                                  match checkPlagiarism fArt.content_with_citations with
                                  | (none, e) => pipelineFail results5 (pyOrStr e "Failed to generate Plagiarism Report.") job5
                                  | (some pr, e) =>
                                    if pyTruthyS e then
                                      pipelineFail results5 (pyOrStr e "Failed to generate Plagiarism Report.") job5
                                    else
                                      let pArt := mkPlagArt job.plag_report pr actor now
                                      let job6 := { job5 with plag_report := some pArt, status := "PLAGIARISM_REPORT" }
                                      let results6 := results5 ++ ["Plagiarism report generated"]
                                      if ¬ canRegenA job.ai_report then
                                        pipelineFail results6 "Generation limit reached for AI Report." job6
                                      else
                                        match checkAiContent fArt.content_with_citations with
                                        | (none, e) => pipelineFail results6 (pyOrStr e "Failed to generate AI Report.") job6
                                        | (some ar, e) =>
                                          if pyTruthyS e then
                                            pipelineFail results6 (pyOrStr e "Failed to generate AI Report.") job6
                                          else
                                            let aArt := mkAiArt job.ai_report ar actor now
                                            let job7 := { job6 with ai_report := some aArt, status := "AI_REPORT" }
                                            let results7 := results6 ++ ["AI report generated"]
                                            let job8 := (syncJobStatus job7).1
                                            (⟨true, results7, none⟩, job8)

/-- A job whose summary artifact has used all 3 regenerations. -/
def c1Job : MarketingJob :=
  { job_id := "J1", status := "PENDING", is_approved := false,
    summary := some { topic := "T", word_count := 1500, reference_style := "Harvard",
                      writing_style := "Report", summary_text := "S",
                      regeneration_count := 3, is_approved := true,
                      approved_by := none, approved_at := none },
    job_structure := none, generated_content := none, references := none,
    full_content := none, plag_report := none, ai_report := none }

/-- A fresh job with no artifacts yet. -/
def c8Job : MarketingJob :=
  { job_id := "J8", status := "PENDING", is_approved := false,
    summary := none, job_structure := none, generated_content := none,
    references := none, full_content := none, plag_report := none, ai_report := none }

/-- A parsed job-summary payload used as a concrete stage-1 result. -/
def c8Data : SummaryData :=
  { topic := "T", word_count := 1500, reference_style := "Harvard",
    writing_style := "Report", summary := "S" }

/-! ### Claim-level observation and hypothesis definitions -/

/-- The allocator core on the target path (`expected_total` a nonzero int):
derive parents from children, scale to the target, force intro/conclusion. -/
def coreCounts (T : Int) (iNum cNum : Option Nat) (mains : List MainEntry)
    (subs : List (Nat × List SubItem)) : Dict :=
  forceIntroConcl iNum cNum (scaleToTarget T (buildMainCounts mains subs))

/-- Parse a text the way `_rebalance_structure_text` does (total line skipped). -/
def parsedOf (s : String) : ParsedStructure :=
  parseStructLines (pySplitlines s) ((pySplitlines s).findIdx? isTotalLine)

/-- The sum of the non-ignored top-level section counts of a text. -/
def topLevelSum (s : String) : Int :=
  ((parsedOf s).mains.map MainEntry.count).sum

/-- The count recorded on the top-level section numbered `n` of a text. -/
def mainCountIn (s : String) (n : Nat) : Option Int :=
  ((parsedOf s).mains.find? (fun e => e.num = n)).map MainEntry.count

/-- Clamp-free condition of the scaling step (lines 424-431): no drift, or the
drift is absorbed by the largest entry without hitting the `max(1, ·)` floor. -/
def scaleClampFree (target : Int) (mc : Dict) : Bool :=
  let scaled := scaledOf target mc
  let drift := target - dictSum scaled
  decide (drift = 0) ||
    (match argmaxFirst scaled with
     | some p => decide (1 ≤ p.2 + drift)
     | none => false)

/-- Clamp-free condition of the intro/conclusion step (lines 442-463): the
step leaves the total unchanged — no forcing took place, or the drift went
into a remaining section (one exists, with a truthy number) without hitting
the floor. -/
def introClampFree (iNum cNum : Option Nat) (mc : Dict) : Bool :=
  let totalMain := dictSum mc
  if totalMain > 0 then
    let mcF := forceTargets iNum cNum (introTarget totalMain) mc
    let remaining := remainingKeys iNum cNum mcF
    if remaining.isEmpty then decide (dictSum mcF = totalMain)
    else
      let drift := totalMain - dictSum mcF
      decide (drift = 0) ||
        (match argmaxFirst (mcF.filter (fun p => remaining.contains p.1)) with
         | some p => decide (p.1 ≠ 0) && decide (1 ≤ p.2 + drift)
         | none => false)
  else true

/-- No `max(1, ·)` clamp in the child rescaling: after rescaling, every
parent's children sum back to the parent. -/
def childRescaleExact (mc2 : Dict) (subs : List (Nat × List SubItem)) : Bool :=
  subs.all (fun pr =>
    match dictLookup pr.1 mc2 with
    | some pt =>
      if pt = 0 then true
      else if childSum pr.2 ≤ 0 then true
      else decide ((rescaleItems pt (pr.2.map (fun it => it.2.2))).sum = pt)
    | none => true)

/-- The mains as they re-parse after the allocator wrote its counts back. -/
def mainsRewrite (mains : List MainEntry) (mc2 : Dict) : List MainEntry :=
  mains.map (fun e => { e with count := (dictLookup e.num mc2).getD e.count })

def zipItems : List SubItem → List Int → List SubItem
  | [], _ => []
  | its, [] => its
  | it :: its, v :: vs => (it.1, it.2.1, v) :: zipItems its vs

/-- The rewritten children of one parent (identity on the skipped branches of
the child-rescaling loop). -/
def rewriteItems (mc2 : Dict) (k : Nat) (items : List SubItem) : List SubItem :=
  match dictLookup k mc2 with
  | some pt =>
    if pt = 0 then items
    else if childSum items ≤ 0 then items
    else zipItems items (rescaleItems pt (items.map (fun it => it.2.2)))
  | none => items

/-- The subsections as they re-parse after the allocator wrote its counts. -/
def subsRewrite (subs : List (Nat × List SubItem)) (mc2 : Dict) :
    List (Nat × List SubItem) :=
  subs.map (fun pr => (pr.1, rewriteItems mc2 pr.1 pr.2))

/-! Concrete inputs for the worked example and the counterexamples. -/

def workedExampleIn : String :=
  "1. Introduction - 50 words\n2. Body - 50 words\n2.1 Background - 20 words\n2.2 Analysis - 30 words\n3. Conclusion - 400 words"

def workedExampleOut : String :=
  "1. Introduction - 100 words\nTotal Word Count: 1000\n2. Body - 800 words\n2.1 Background - 320 words\n2.2 Analysis - 480 words\n3. Conclusion - 100 words"

/-- An outline whose only top-level sections are an Introduction and a
Conclusion: the intro/conclusion forcing has no remaining section to absorb
the drift. -/
def introConclOnly : String :=
  "1. Introduction - 50 words\n2. Conclusion - 100 words"

/-- An outline whose parent target is smaller than the number of children, so
the child rescaling clamps at 1 and the children no longer sum to the parent. -/
def nestedClampIn : String :=
  "1. Alpha - 998 words\n2. Beta - 6 words\n2.1 X - 2 words\n2.2 Y - 2 words\n2.3 Z - 2 words"

/-- A structure text declaring a grand total of 100 words and nothing else. -/
def c9Struct : String :=
  "Total Word Count: 100"

/-- A draft of exactly 95 words: within 10 percent of a 100-word total, but
outside the 2-percent band `[98, 102]` that `generate_content` checks. -/
def c9Draft : String :=
  String.intercalate " " (List.replicate 95 "ok")

/-- All-zero declared counts: `main_sum <= 0` makes the allocator return the
text unchanged. -/
def zeroCountsIn : String :=
  "1. Introduction - 0 words\n2. Body - 0 words\n3. Conclusion - 0 words"

/-- A three-section Introduction / Body / Conclusion outline with arbitrary
counts, as parsed. -/
def icMains (a b c : Int) : List MainEntry :=
  [⟨0, 1, a, "1. Introduction - 50 words"⟩,
   ⟨1, 2, b, "2. Body - 50 words"⟩,
   ⟨2, 3, c, "3. Conclusion - 400 words"⟩]

def icFinal (a b c : Int) : Dict :=
  coreCounts 1000 (findMainByName "introduction" (icMains a b c))
    (findMainByName "conclusion" (icMains a b c)) (icMains a b c) []

/-! ### Supporting lemmas -/

theorem floor_le_self (q : ℚ) : (q.floor : ℚ) ≤ q :=
  (Rat.le_floor.mp (le_refl q.floor))

theorem self_lt_floor_add_one (q : ℚ) : q < (q.floor : ℚ) + 1 := by
  by_contra h
  push_neg at h
  have h2 : ((q.floor + 1 : ℤ) : ℚ) ≤ q := by push_cast; linarith
  have h3 : q.floor + 1 ≤ q.floor := Rat.le_floor.mpr h2
  omega

theorem den_cast_pos (q : ℚ) : (0 : ℚ) < (q.den : ℚ) := by
  exact_mod_cast q.den_pos

theorem mul_den_eq_num (q : ℚ) : q * (q.den : ℚ) = (q.num : ℚ) := by
  have hd : ((q.den : ℚ)) ≠ 0 := ne_of_gt (den_cast_pos q)
  have h := Rat.num_div_den q
  rw [div_eq_iff hd] at h
  exact h.symm

theorem fracNum_cast (q : ℚ) :
    ((pyFracNum q : ℤ) : ℚ) = (q - (q.floor : ℚ)) * (q.den : ℚ) := by
  unfold pyFracNum
  push_cast
  rw [← mul_den_eq_num q]
  ring

theorem rnum_lt_iff (q : ℚ) :
    2 * pyFracNum q < (q.den : ℤ) ↔ q - (q.floor : ℚ) < 1/2 := by
  have hd := den_cast_pos q
  have hcast : ((2 * pyFracNum q : ℤ) : ℚ) = 2 * ((q - (q.floor : ℚ)) * (q.den : ℚ)) := by
    push_cast [fracNum_cast q]
    ring
  constructor
  · intro h
    have h2 : ((2 * pyFracNum q : ℤ) : ℚ) < ((q.den : ℤ) : ℚ) := by exact_mod_cast h
    rw [hcast] at h2
    push_cast at h2
    nlinarith
  · intro h
    have h2 : ((2 * pyFracNum q : ℤ) : ℚ) < ((q.den : ℤ) : ℚ) := by
      rw [hcast]
      push_cast
      nlinarith
    exact_mod_cast h2

theorem rnum_gt_iff (q : ℚ) :
    (q.den : ℤ) < 2 * pyFracNum q ↔ 1/2 < q - (q.floor : ℚ) := by
  have hd := den_cast_pos q
  have hcast : ((2 * pyFracNum q : ℤ) : ℚ) = 2 * ((q - (q.floor : ℚ)) * (q.den : ℚ)) := by
    push_cast [fracNum_cast q]
    ring
  constructor
  · intro h
    have h2 : ((q.den : ℤ) : ℚ) < ((2 * pyFracNum q : ℤ) : ℚ) := by exact_mod_cast h
    rw [hcast] at h2
    push_cast at h2
    nlinarith
  · intro h
    have h2 : ((q.den : ℤ) : ℚ) < ((2 * pyFracNum q : ℤ) : ℚ) := by
      rw [hcast]
      push_cast
      nlinarith
    exact_mod_cast h2

theorem pyRound_le (q : ℚ) : (pyRound q : ℚ) ≤ q + 1/2 := by
  unfold pyRound
  have h1 := floor_le_self q
  have h2 := self_lt_floor_add_one q
  split
  · rename_i h
    rw [rnum_lt_iff q] at h
    linarith
  · split
    · rename_i h3 h
      rw [rnum_gt_iff q] at h
      push_cast
      linarith
    · rename_i h3 h4
      rw [rnum_lt_iff q] at h3
      rw [rnum_gt_iff q] at h4
      push_neg at h3 h4
      split
      · linarith
      · push_cast
        linarith

theorem le_pyRound (q : ℚ) : q - 1/2 ≤ (pyRound q : ℚ) := by
  unfold pyRound
  have h1 := floor_le_self q
  have h2 := self_lt_floor_add_one q
  split
  · rename_i h
    rw [rnum_lt_iff q] at h
    linarith
  · split
    · rename_i h3 h
      rw [rnum_gt_iff q] at h
      push_cast
      linarith
    · rename_i h3 h4
      rw [rnum_lt_iff q] at h3
      rw [rnum_gt_iff q] at h4
      push_neg at h3 h4
      split
      · linarith
      · push_cast
        linarith

theorem pyRound_intCast (n : ℤ) : pyRound (n : ℚ) = n := by
  have h1 : ((n : ℚ)).num = n := Rat.intCast_num n
  have h2 : ((n : ℚ)).den = 1 := Rat.intCast_den n
  have h3 : ((n : ℚ)).floor = n := by
    have ha : n ≤ ((n : ℚ)).floor := Rat.le_floor.mpr (le_refl _)
    have hb : (((n : ℚ)).floor : ℚ) ≤ (n : ℚ) := floor_le_self _
    have hc : ((n : ℚ)).floor ≤ n := by exact_mod_cast hb
    omega
  unfold pyRound pyFracNum
  rw [h1, h2, h3]
  simp

theorem ratScale_eq (v target s : Int) :
    ratScale v target s = (v : ℚ) * ((target : ℚ) / (s : ℚ)) := by
  unfold ratScale
  rw [Rat.divInt_eq_div]
  push_cast
  ring

theorem dictSum_updateFirst (k : Nat) (v w : Int) (d : Dict)
    (h : dictLookup k d = some w) :
    dictSum (updateFirst k v d) = dictSum d - w + v := by
  induction d with
  | nil => simp [dictLookup] at h
  | cons p rest ih =>
    obtain ⟨a, b⟩ := p
    by_cases hk : a = k
    · rw [dictLookup, if_pos hk] at h
      cases h
      rw [updateFirst, if_pos hk]
      simp only [dictSum, List.map_cons, List.sum_cons]
      ring
    · rw [dictLookup, if_neg hk] at h
      rw [updateFirst, if_neg hk]
      simp only [dictSum, List.map_cons, List.sum_cons]
      have h2 := ih h
      simp only [dictSum] at h2
      rw [h2]
      ring

theorem dictLookup_updateFirst_self (k : Nat) (v : Int) (d : Dict)
    (h : (dictLookup k d).isSome) :
    dictLookup k (updateFirst k v d) = some v := by
  induction d with
  | nil => simp [dictLookup] at h
  | cons p rest ih =>
    obtain ⟨a, b⟩ := p
    by_cases hk : a = k
    · rw [updateFirst, if_pos hk, dictLookup, if_pos rfl]
    · rw [dictLookup, if_neg hk] at h
      rw [updateFirst, if_neg hk, dictLookup, if_neg hk]
      exact ih h

theorem dictLookup_updateFirst_other (k j : Nat) (v : Int) (d : Dict)
    (h : j ≠ k) :
    dictLookup j (updateFirst k v d) = dictLookup j d := by
  induction d with
  | nil => simp [updateFirst]
  | cons p rest ih =>
    obtain ⟨a, b⟩ := p
    by_cases hk : a = k
    · have h1 : ¬ k = j := fun hc => h hc.symm
      have h2 : ¬ a = j := by rw [hk]; exact h1
      rw [updateFirst, if_pos hk, dictLookup, dictLookup, if_neg h1, if_neg h2]
    · rw [updateFirst, if_neg hk, dictLookup, dictLookup]
      by_cases hj : a = j
      · rw [if_pos hj, if_pos hj]
      · rw [if_neg hj, if_neg hj]
        exact ih

theorem updateFirst_eq_self (k : Nat) (v : Int) (d : Dict)
    (h : dictLookup k d = some v) :
    updateFirst k v d = d := by
  induction d with
  | nil => rfl
  | cons p rest ih =>
    obtain ⟨a, b⟩ := p
    by_cases hk : a = k
    · rw [dictLookup, if_pos hk] at h
      cases h
      rw [updateFirst, if_pos hk, hk]
    · rw [dictLookup, if_neg hk] at h
      rw [updateFirst, if_neg hk, ih h]

theorem dictKeys_updateFirst (k : Nat) (v : Int) (d : Dict) :
    dictKeys (updateFirst k v d) = dictKeys d := by
  induction d with
  | nil => rfl
  | cons p rest ih =>
    obtain ⟨a, b⟩ := p
    by_cases hk : a = k
    · rw [updateFirst, if_pos hk]
      simp only [dictKeys, List.map_cons]
      rw [hk]
    · rw [updateFirst, if_neg hk]
      simp only [dictKeys, List.map_cons]
      simp only [dictKeys] at ih
      rw [ih]

theorem argmaxFirst_isSome (d : Dict) (h : d ≠ []) : (argmaxFirst d).isSome := by
  cases d with
  | nil => simp at h
  | cons p rest =>
    simp only [argmaxFirst]
    cases argmaxFirst rest with
    | none => simp
    | some q => by_cases hq : q.2 > p.2 <;> simp [hq]

theorem argmaxFirst_mem (d : Dict) (p : Nat × Int) (h : argmaxFirst d = some p) :
    p ∈ d := by
  induction d generalizing p with
  | nil => simp [argmaxFirst] at h
  | cons q rest ih =>
    simp only [argmaxFirst] at h
    cases hr : argmaxFirst rest with
    | none =>
      rw [hr] at h
      simp only [Option.some.injEq] at h
      exact h ▸ List.mem_cons_self _ _
    | some r =>
      rw [hr] at h
      simp only [] at h
      by_cases hq : r.2 > q.2
      · rw [if_pos hq] at h
        simp only [Option.some.injEq] at h
        exact List.mem_cons_of_mem _ (h ▸ ih r hr)
      · rw [if_neg hq] at h
        simp only [Option.some.injEq] at h
        exact h ▸ List.mem_cons_self _ _

theorem argmaxFirst_ge (d : Dict) (p : Nat × Int) (h : argmaxFirst d = some p) :
    ∀ q ∈ d, q.2 ≤ p.2 := by
  induction d generalizing p with
  | nil => simp [argmaxFirst] at h
  | cons q rest ih =>
    intro r hr
    simp only [argmaxFirst] at h
    cases hm : argmaxFirst rest with
    | none =>
      rw [hm] at h
      simp only [Option.some.injEq] at h
      rcases List.mem_cons.mp hr with h1 | h1
      · rw [h1, ← h]
      · exfalso
        have h2 := argmaxFirst_isSome rest (by rintro rfl; simp at h1)
        rw [hm] at h2
        simp at h2
    | some m =>
      rw [hm] at h
      simp only [] at h
      by_cases hq : m.2 > q.2
      · rw [if_pos hq] at h
        simp only [Option.some.injEq] at h
        rcases List.mem_cons.mp hr with h1 | h1
        · subst h1
          rw [← h]
          omega
        · exact h ▸ ih m hm r h1
      · rw [if_neg hq] at h
        simp only [Option.some.injEq] at h
        rcases List.mem_cons.mp hr with h1 | h1
        · subst h1
          rw [← h]
        · have h2 := ih m hm r h1
          rw [← h]
          omega

/-- With nodup keys, every member is the first (hence looked-up) entry of its key. -/
theorem dictLookup_of_mem (d : Dict) (p : Nat × Int)
    (hnd : (dictKeys d).Nodup) (h : p ∈ d) :
    dictLookup p.1 d = some p.2 := by
  induction d with
  | nil => simp at h
  | cons q rest ih =>
    obtain ⟨a, b⟩ := q
    simp only [dictKeys, List.map_cons, List.nodup_cons] at hnd
    rcases List.mem_cons.mp h with h1 | h1
    · subst h1
      simp [dictLookup]
    · have hne : a ≠ p.1 := by
        intro hcontra
        exact hnd.1 (hcontra ▸ List.mem_map_of_mem Prod.fst h1)
      simp only [dictLookup, if_neg hne]
      exact ih hnd.2 h1

/-! ### Dict structure lemmas -/

theorem mem_updateFirst (k : Nat) (v : Int) (d : Dict) (q : Nat × Int)
    (h : q ∈ updateFirst k v d) : q ∈ d ∨ q = (k, v) := by
  induction d with
  | nil => simp [updateFirst] at h
  | cons p rest ih =>
    obtain ⟨a, b⟩ := p
    by_cases hk : a = k
    · rw [updateFirst, if_pos hk] at h
      rcases List.mem_cons.mp h with h1 | h1
      · exact Or.inr h1
      · exact Or.inl (List.mem_cons_of_mem _ h1)
    · rw [updateFirst, if_neg hk] at h
      rcases List.mem_cons.mp h with h1 | h1
      · exact Or.inl (h1 ▸ List.mem_cons_self _ _)
      · rcases ih h1 with h2 | h2
        · exact Or.inl (List.mem_cons_of_mem _ h2)
        · exact Or.inr h2

theorem dictLookup_isSome_iff (k : Nat) (d : Dict) :
    (dictLookup k d).isSome = true ↔ k ∈ dictKeys d := by
  induction d with
  | nil => simp [dictLookup, dictKeys]
  | cons p rest ih =>
    obtain ⟨a, b⟩ := p
    by_cases hk : a = k
    · subst hk
      simp [dictLookup, dictKeys]
    · rw [dictLookup, if_neg hk]
      simp only [dictKeys, List.map_cons, List.mem_cons]
      rw [ih]
      constructor
      · intro h
        exact Or.inr h
      · intro h
        rcases h with h | h
        · exact absurd h.symm hk
        · exact h

theorem dictLookup_append_single (k n : Nat) (v : Int) (d : Dict) :
    dictLookup n (d ++ [(k, v)]) =
      match dictLookup n d with
      | some w => some w
      | none => if k = n then some v else none := by
  induction d with
  | nil => simp [dictLookup]
  | cons p rest ih =>
    obtain ⟨a, b⟩ := p
    by_cases ha : a = n
    · simp [dictLookup, ha]
    · rw [List.cons_append, dictLookup, if_neg ha, dictLookup, if_neg ha]
      exact ih

theorem dictKeys_append_single (k : Nat) (v : Int) (d : Dict) :
    dictKeys (d ++ [(k, v)]) = dictKeys d ++ [k] := by
  simp [dictKeys]

theorem dictKeys_dictInsert (k : Nat) (v : Int) (d : Dict) :
    dictKeys (dictInsert k v d) =
      if k ∈ dictKeys d then dictKeys d else dictKeys d ++ [k] := by
  unfold dictInsert
  by_cases h : (dictLookup k d).isSome
  · rw [if_pos h, dictKeys_updateFirst, if_pos ((dictLookup_isSome_iff k d).mp h)]
  · rw [if_neg h, dictKeys_append_single, if_neg]
    intro hmem
    exact h ((dictLookup_isSome_iff k d).mpr hmem)

theorem dictInsert_nodup (k : Nat) (v : Int) (d : Dict)
    (h : (dictKeys d).Nodup) : (dictKeys (dictInsert k v d)).Nodup := by
  rw [dictKeys_dictInsert]
  by_cases hk : k ∈ dictKeys d
  · rw [if_pos hk]
    exact h
  · rw [if_neg hk]
    rw [List.nodup_append]
    refine ⟨h, List.nodup_singleton k, ?_⟩
    intro a ha hb
    rw [List.mem_singleton] at hb
    subst hb
    exact hk ha

theorem dictLookup_dictInsert_self (k : Nat) (v : Int) (d : Dict) :
    dictLookup k (dictInsert k v d) = some v := by
  unfold dictInsert
  by_cases h : (dictLookup k d).isSome
  · rw [if_pos h]
    exact dictLookup_updateFirst_self k v d h
  · rw [if_neg h]
    rw [dictLookup_append_single]
    cases hl : dictLookup k d with
    | some w => rw [hl] at h; simp at h
    | none => simp

theorem dictLookup_dictInsert_other (k n : Nat) (v : Int) (d : Dict) (hne : n ≠ k) :
    dictLookup n (dictInsert k v d) = dictLookup n d := by
  unfold dictInsert
  by_cases h : (dictLookup k d).isSome
  · rw [if_pos h]
    exact dictLookup_updateFirst_other k n v d hne
  · rw [if_neg h, dictLookup_append_single]
    cases hl : dictLookup n d with
    | some w => rfl
    | none => rw [if_neg (fun hc => hne hc.symm)]

/-! ### `buildWith` lemmas -/

theorem buildWith_go_keys_mem (f : MainEntry → Int) (mains : List MainEntry) :
    ∀ (mc : Dict) (n : Nat),
      (n ∈ dictKeys (mains.foldl (fun mc e => dictInsert e.num (f e) mc) mc) ↔
        n ∈ dictKeys mc ∨ n ∈ mains.map MainEntry.num) := by
  induction mains with
  | nil => simp
  | cons e rest ih =>
    intro mc n
    simp only [List.foldl_cons, List.map_cons, List.mem_cons]
    rw [ih]
    rw [dictKeys_dictInsert]
    by_cases h : e.num ∈ dictKeys mc
    · rw [if_pos h]
      constructor
      · rintro (h1 | h1)
        · exact Or.inl h1
        · exact Or.inr (Or.inr h1)
      · rintro (h1 | h1 | h1)
        · exact Or.inl h1
        · exact Or.inl (h1 ▸ h)
        · exact Or.inr h1
    · rw [if_neg h]
      simp only [List.mem_append, List.mem_singleton]
      constructor
      · rintro ((h1 | h1) | h1)
        · exact Or.inl h1
        · exact Or.inr (Or.inl h1)
        · exact Or.inr (Or.inr h1)
      · rintro (h1 | h1 | h1)
        · exact Or.inl (Or.inl h1)
        · exact Or.inl (Or.inr h1)
        · exact Or.inr h1

theorem buildWith_keys_mem (f : MainEntry → Int) (mains : List MainEntry) (n : Nat) :
    n ∈ dictKeys (buildWith f mains) ↔ n ∈ mains.map MainEntry.num := by
  unfold buildWith
  rw [buildWith_go_keys_mem]
  simp [dictKeys]

theorem buildWith_go_keys_eq (f g : MainEntry → Int) (mains1 : List MainEntry) :
    ∀ (mains2 : List MainEntry) (mc1 mc2 : Dict),
      mains1.map MainEntry.num = mains2.map MainEntry.num →
      dictKeys mc1 = dictKeys mc2 →
      dictKeys (mains1.foldl (fun mc e => dictInsert e.num (f e) mc) mc1) =
      dictKeys (mains2.foldl (fun mc e => dictInsert e.num (g e) mc) mc2) := by
  induction mains1 with
  | nil =>
    intro mains2 mc1 mc2 hm hk
    cases mains2 with
    | nil => simpa using hk
    | cons e2 r2 => simp at hm
  | cons e1 r1 ih =>
    intro mains2 mc1 mc2 hm hk
    cases mains2 with
    | nil => simp at hm
    | cons e2 r2 =>
      simp only [List.map_cons, List.cons.injEq] at hm
      simp only [List.foldl_cons]
      apply ih r2 _ _ hm.2
      rw [dictKeys_dictInsert, dictKeys_dictInsert, hk, hm.1]

theorem buildWith_keys_eq (f g : MainEntry → Int) (mains1 mains2 : List MainEntry)
    (h : mains1.map MainEntry.num = mains2.map MainEntry.num) :
    dictKeys (buildWith f mains1) = dictKeys (buildWith g mains2) :=
  buildWith_go_keys_eq f g mains1 mains2 [] [] h rfl

theorem buildWith_go_nodup (f : MainEntry → Int) (mains : List MainEntry) :
    ∀ (mc : Dict), (dictKeys mc).Nodup →
      (dictKeys (mains.foldl (fun mc e => dictInsert e.num (f e) mc) mc)).Nodup := by
  induction mains with
  | nil => intro mc h; exact h
  | cons e rest ih =>
    intro mc h
    simp only [List.foldl_cons]
    exact ih _ (dictInsert_nodup _ _ _ h)

theorem buildWith_nodup (f : MainEntry → Int) (mains : List MainEntry) :
    (dictKeys (buildWith f mains)).Nodup :=
  buildWith_go_nodup f mains [] (by simp [dictKeys])

theorem buildWith_go_lookup (f : MainEntry → Int) (g : Nat → Int) (mains : List MainEntry) :
    ∀ (mc : Dict),
      (∀ e ∈ mains, f e = g e.num) →
      (∀ n, n ∈ dictKeys mc → dictLookup n mc = some (g n)) →
      ∀ n, n ∈ dictKeys (mains.foldl (fun mc e => dictInsert e.num (f e) mc) mc) →
        dictLookup n (mains.foldl (fun mc e => dictInsert e.num (f e) mc) mc) = some (g n) := by
  induction mains with
  | nil =>
    intro mc _ hinv n hn
    exact hinv n hn
  | cons e rest ih =>
    intro mc hfg hinv n hn
    simp only [List.foldl_cons] at hn ⊢
    apply ih _ (fun e2 he2 => hfg e2 (List.mem_cons_of_mem _ he2)) _ n hn
    intro m hm
    rw [dictKeys_dictInsert] at hm
    by_cases hme : m = e.num
    · subst hme
      rw [dictLookup_dictInsert_self]
      rw [hfg e (List.mem_cons_self _ _)]
    · rw [dictLookup_dictInsert_other _ _ _ _ hme]
      apply hinv
      split at hm
      · exact hm
      · rcases List.mem_append.mp hm with h1 | h1
        · exact h1
        · rw [List.mem_singleton] at h1
          exact absurd h1 hme

theorem buildWith_lookup (f : MainEntry → Int) (g : Nat → Int) (mains : List MainEntry)
    (hfg : ∀ e ∈ mains, f e = g e.num) (n : Nat) (hn : n ∈ mains.map MainEntry.num) :
    dictLookup n (buildWith f mains) = some (g n) := by
  apply buildWith_go_lookup f g mains [] hfg
  · intro m hm
    simp [dictKeys] at hm
  · exact (buildWith_keys_mem f mains n).mpr hn

/-! ### Keys and value bounds through the scaling steps -/

theorem dictKeys_scaledOf (t : Int) (mc : Dict) : dictKeys (scaledOf t mc) = dictKeys mc := by
  simp only [scaledOf, dictKeys, List.map_map]
  rfl

theorem dictKeys_scaleToTarget (t : Int) (mc : Dict) :
    dictKeys (scaleToTarget t mc) = dictKeys mc := by
  simp only [scaleToTarget]
  split
  · exact dictKeys_scaledOf t mc
  · split
    · rw [dictKeys_updateFirst, dictKeys_scaledOf]
    · exact dictKeys_scaledOf t mc

theorem dictKeys_optForce (t : Int) (o : Option Nat) (d : Dict) :
    dictKeys (optForce t o d) = dictKeys d := by
  cases o with
  | none => rfl
  | some c =>
    simp only [optForce]
    by_cases hc : (decide (c ≠ 0) && (dictLookup c d).isSome) = true
    · rw [if_pos hc, dictKeys_updateFirst]
    · rw [if_neg hc]

theorem optForce_val_ge_one (t : Int) (o : Option Nat) (d : Dict)
    (hd : ∀ p ∈ d, 1 ≤ p.2) : ∀ p ∈ optForce t o d, 1 ≤ p.2 := by
  intro p hp
  cases o with
  | none => exact hd p hp
  | some c =>
    simp only [optForce] at hp
    by_cases hc : (decide (c ≠ 0) && (dictLookup c d).isSome) = true
    · rw [if_pos hc] at hp
      rcases mem_updateFirst _ _ _ _ hp with h1 | h1
      · exact hd p h1
      · rw [h1]
        exact le_max_left _ _
    · rw [if_neg hc] at hp
      exact hd p hp

theorem dictKeys_forceTargets (iNum cNum : Option Nat) (t : Int) (mc : Dict) :
    dictKeys (forceTargets iNum cNum t mc) = dictKeys mc := by
  simp only [forceTargets]
  rw [dictKeys_optForce, dictKeys_optForce]

theorem dictKeys_forceIntroConcl (iNum cNum : Option Nat) (mc : Dict) :
    dictKeys (forceIntroConcl iNum cNum mc) = dictKeys mc := by
  simp only [forceIntroConcl]
  split
  · split
    · exact dictKeys_forceTargets iNum cNum _ mc
    · split
      · exact dictKeys_forceTargets iNum cNum _ mc
      · split
        · split
          · rw [dictKeys_updateFirst]
            exact dictKeys_forceTargets iNum cNum _ mc
          · exact dictKeys_forceTargets iNum cNum _ mc
        · exact dictKeys_forceTargets iNum cNum _ mc
  · rfl

theorem scaleToTarget_val_ge_one (t : Int) (mc : Dict) (p : Nat × Int)
    (hp : p ∈ scaleToTarget t mc) : 1 ≤ p.2 := by
  have hmap : ∀ q, q ∈ scaledOf t mc → 1 ≤ q.2 := by
    intro q hq
    simp only [scaledOf, List.mem_map] at hq
    obtain ⟨r, _, hr⟩ := hq
    rw [← hr]
    exact le_max_left _ _
  simp only [scaleToTarget] at hp
  split at hp
  · exact hmap p hp
  · split at hp
    · rcases mem_updateFirst _ _ _ _ hp with h1 | h1
      · exact hmap p h1
      · rw [h1]
        exact le_max_left _ _
    · exact hmap p hp

theorem forceTargets_val_ge_one (iNum cNum : Option Nat) (t : Int) (mc : Dict)
    (hone : ∀ p ∈ mc, 1 ≤ p.2) :
    ∀ p ∈ forceTargets iNum cNum t mc, 1 ≤ p.2 := by
  simp only [forceTargets]
  exact optForce_val_ge_one t cNum _ (optForce_val_ge_one t iNum mc hone)

theorem forceIntroConcl_val_ge_one (iNum cNum : Option Nat) (mc : Dict)
    (hone : ∀ p ∈ mc, 1 ≤ p.2) :
    ∀ p ∈ forceIntroConcl iNum cNum mc, 1 ≤ p.2 := by
  have hF := forceTargets_val_ge_one iNum cNum (introTarget (dictSum mc)) mc hone
  simp only [forceIntroConcl]
  intro p hp
  split at hp
  · split at hp
    · exact hF p hp
    · split at hp
      · exact hF p hp
      · split at hp
        · split at hp
          · rcases mem_updateFirst _ _ _ _ hp with h1 | h1
            · exact hF p h1
            · rw [h1]
              exact le_max_left _ _
          · exact hF p hp
        · exact hF p hp
  · exact hone p hp

/-! ### Exactness of the scaling and intro/conclusion steps -/

theorem dictSum_scaleToTarget (t : Int) (mc : Dict)
    (hnd : (dictKeys mc).Nodup) (h : scaleClampFree t mc = true) :
    dictSum (scaleToTarget t mc) = t := by
  have hndS : (dictKeys (scaledOf t mc)).Nodup := by
    rw [dictKeys_scaledOf]
    exact hnd
  simp only [scaleClampFree] at h
  simp only [scaleToTarget]
  by_cases hd : t - dictSum (scaledOf t mc) = 0
  · rw [if_pos hd]
    omega
  · rw [if_neg hd]
    rw [Bool.or_eq_true] at h
    rcases h with h | h
    · rw [decide_eq_true_iff] at h
      exact absurd h hd
    · cases hm : argmaxFirst (scaledOf t mc) with
      | none =>
        rw [hm] at h
        simp at h
      | some p =>
        rw [hm] at h
        rw [decide_eq_true_iff] at h
        have hlk : dictLookup p.1 (scaledOf t mc) = some p.2 :=
          dictLookup_of_mem _ p hndS (argmaxFirst_mem _ p hm)
        rw [dictSum_updateFirst p.1 _ p.2 _ hlk]
        rw [max_eq_right (by omega)]
        omega

theorem dictSum_forceIntroConcl (iNum cNum : Option Nat) (mc : Dict)
    (hnd : (dictKeys mc).Nodup) (h : introClampFree iNum cNum mc = true) :
    dictSum (forceIntroConcl iNum cNum mc) = dictSum mc := by
  simp only [introClampFree] at h
  simp only [forceIntroConcl]
  by_cases ht : dictSum mc > 0
  · rw [if_pos ht] at h ⊢
    set mcF := forceTargets iNum cNum (introTarget (dictSum mc)) mc with hmcF
    set rem := remainingKeys iNum cNum mcF with hrem
    have hndF : (dictKeys mcF).Nodup := by
      rw [hmcF, dictKeys_forceTargets]
      exact hnd
    by_cases hre : rem.isEmpty = true
    · rw [if_pos hre] at h ⊢
      exact decide_eq_true_iff.mp h
    · rw [if_neg hre] at h ⊢
      by_cases hd : dictSum mc - dictSum mcF = 0
      · rw [if_pos hd]
        omega
      · rw [if_neg hd]
        rw [Bool.or_eq_true] at h
        rcases h with h | h
        · exact absurd (decide_eq_true_iff.mp h) hd
        · set flt := mcF.filter (fun p => rem.contains p.1) with hflt
          cases hm : argmaxFirst flt with
          | none =>
            rw [hm] at h
            simp at h
          | some p =>
            rw [hm] at h
            simp only [] at h ⊢
            rw [Bool.and_eq_true, decide_eq_true_iff, decide_eq_true_iff] at h
            rw [if_pos h.1]
            have hmem : p ∈ mcF := List.mem_of_mem_filter (argmaxFirst_mem _ p hm)
            have hlk := dictLookup_of_mem _ p hndF hmem
            rw [dictSum_updateFirst p.1 _ p.2 _ hlk]
            rw [max_eq_right (by omega)]
            omega
  · rw [if_neg ht]

theorem pyRound_max1_le (x : ℚ) (hx : 0 ≤ x) :
    ((max 1 (pyRound x) : ℤ) : ℚ) ≤ x + 3/2 := by
  have h1 := pyRound_le x
  push_cast
  rw [max_le_iff]
  constructor
  · linarith
  · linarith

theorem le_pyRound_max1 (x : ℚ) : x - 1/2 ≤ ((max 1 (pyRound x) : ℤ) : ℚ) := by
  have h1 := le_pyRound x
  have h2 : ((pyRound x : ℤ) : ℚ) ≤ ((max 1 (pyRound x) : ℤ) : ℚ) := by
    exact_mod_cast le_max_right 1 (pyRound x)
  linarith

theorem buildWith_go_lookup_at (f : MainEntry → Int) (v : Int) (n : Nat)
    (mains : List MainEntry) :
    ∀ (mc : Dict),
      (∀ e ∈ mains, e.num = n → f e = v) →
      (dictLookup n mc = some v ∨
        (dictLookup n mc = none ∧ n ∈ mains.map MainEntry.num)) →
      dictLookup n (mains.foldl (fun mc e => dictInsert e.num (f e) mc) mc) = some v := by
  induction mains with
  | nil =>
    intro mc _ hinv
    rcases hinv with h | h
    · exact h
    · simp at h
  | cons e rest ih =>
    intro mc hf hinv
    simp only [List.foldl_cons]
    by_cases hen : e.num = n
    · apply ih _ (fun e2 he2 h2 => hf e2 (List.mem_cons_of_mem _ he2) h2)
      left
      rw [← hen, dictLookup_dictInsert_self, hf e (List.mem_cons_self _ _) hen]
    · apply ih _ (fun e2 he2 h2 => hf e2 (List.mem_cons_of_mem _ he2) h2)
      rcases hinv with h | h
      · left
        rw [dictLookup_dictInsert_other _ _ _ _ (fun hc => hen hc.symm)]
        exact h
      · right
        refine ⟨?_, ?_⟩
        · rw [dictLookup_dictInsert_other _ _ _ _ (fun hc => hen hc.symm)]
          exact h.1
        · have h2 : n ∈ MainEntry.num e :: rest.map MainEntry.num := by
            simpa only [List.map_cons] using h.2
          rcases List.mem_cons.mp h2 with h1 | h1
          · exact absurd h1.symm hen
          · exact h1

theorem buildWith_lookup_at (f : MainEntry → Int) (v : Int) (n : Nat)
    (mains : List MainEntry)
    (hmem : n ∈ mains.map MainEntry.num)
    (hf : ∀ e ∈ mains, e.num = n → f e = v) :
    dictLookup n (buildWith f mains) = some v := by
  apply buildWith_go_lookup_at f v n mains [] hf
  right
  exact ⟨rfl, hmem⟩

/-! ### Claim C3 -/

/-- Claim C3 as stated is false: on an outline whose only top-level sections
are an Introduction and a Conclusion, the allocator rescales to the target
(333 + 667 = 1000) but then forces both sections to 10% of that total with
no remaining section to absorb the drift, so the output's top-level counts
sum to 200, not to the supplied target 1000. -/
theorem C3_counterexample :
    (parsedOf introConclOnly).mains ≠ [] ∧
    rebalanceStructureText introConclOnly (some 1000)
      = "1. Introduction - 100 words\nTotal Word Count: 200\n2. Conclusion - 100 words" ∧
    topLevelSum (rebalanceStructureText introConclOnly (some 1000)) = 200 ∧
    (200 : Int) ≠ 1000 := by
  refine ⟨by decide, by decide, by decide, by decide⟩

/-- Claim C3 (amended): for every parsed outline and target `T`, the final
top-level counts of the allocator core sum to exactly `T`, provided the two
drift reconciliations are not clamped at the minimum of 1 — in particular the
intro/conclusion step must leave the total unchanged, which requires at least
one non-intro/non-conclusion section when the forcing changes anything.  The
drift is pushed into a single largest section, never dropped. -/
theorem C3_amended_sum_exact (mains : List MainEntry) (subs : List (Nat × List SubItem))
    (T : Int) (iNum cNum : Option Nat)
    (h1 : scaleClampFree T (buildMainCounts mains subs) = true)
    (h2 : introClampFree iNum cNum (scaleToTarget T (buildMainCounts mains subs)) = true) :
    dictSum (coreCounts T iNum cNum mains subs) = T := by
  have hnd : (dictKeys (buildMainCounts mains subs)).Nodup := buildWith_nodup _ _
  have hndS : (dictKeys (scaleToTarget T (buildMainCounts mains subs))).Nodup := by
    rw [dictKeys_scaleToTarget]
    exact hnd
  unfold coreCounts
  rw [dictSum_forceIntroConcl _ _ _ hndS h2]
  exact dictSum_scaleToTarget T _ hnd h1

/-- Witness for C3 (amended) at the worked example. -/
theorem C3_amended_sum_exact_witness :
    scaleClampFree 1000 (buildMainCounts (parsedOf workedExampleIn).mains
          (parsedOf workedExampleIn).subs) = true ∧
    introClampFree (findMainByName "introduction" (parsedOf workedExampleIn).mains)
        (findMainByName "conclusion" (parsedOf workedExampleIn).mains)
        (scaleToTarget 1000 (buildMainCounts (parsedOf workedExampleIn).mains
          (parsedOf workedExampleIn).subs)) = true ∧
    dictSum (coreCounts 1000
        (findMainByName "introduction" (parsedOf workedExampleIn).mains)
        (findMainByName "conclusion" (parsedOf workedExampleIn).mains)
        (parsedOf workedExampleIn).mains (parsedOf workedExampleIn).subs) = 1000 :=
  ⟨by decide, by decide,
    C3_amended_sum_exact _ _ 1000 _ _ (by decide) (by decide)⟩

/-! ### Claim C6 -/

/-- Claim C6: for every top-level section having at least one non-ignored
child subsection whose parsed counts sum to a positive value, the allocator
uses the children's sum as the parent's count before any scaling, regardless
of the parent's declared count. -/
theorem C6_children_sum_overrides (mains : List MainEntry)
    (subs : List (Nat × List SubItem)) (e : MainEntry) (items : List SubItem)
    (he : e ∈ mains) (hs : subsLookup e.num subs = some items)
    (hpos : 0 < childSum items) :
    dictLookup e.num (buildMainCounts mains subs) = some (childSum items) := by
  unfold buildMainCounts
  apply buildWith_lookup_at _ _ _ _ (List.mem_map_of_mem MainEntry.num he)
  intro e2 _ h2
  unfold derivedCount
  rw [h2, hs]
  simp only []
  rw [if_pos (by omega : childSum items > 0)]

/-- Witness for C6: the parent declares 999 but its children sum to 50. -/
theorem C6_witness :
    (⟨1, 2, 999, "2. Body - 999 words"⟩ : MainEntry) ∈
        (parsedOf "1. Opening - 10 words\n2. Body - 999 words\n2.1 Alpha - 20 words\n2.2 Beta - 30 words").mains ∧
    subsLookup 2
        (parsedOf "1. Opening - 10 words\n2. Body - 999 words\n2.1 Alpha - 20 words\n2.2 Beta - 30 words").subs
      = some [(2, 1, 20), (3, 2, 30)] ∧
    (0 : Int) < childSum [(2, 1, 20), (3, 2, 30)] ∧
    dictLookup 2 (buildMainCounts
        (parsedOf "1. Opening - 10 words\n2. Body - 999 words\n2.1 Alpha - 20 words\n2.2 Beta - 30 words").mains
        (parsedOf "1. Opening - 10 words\n2. Body - 999 words\n2.1 Alpha - 20 words\n2.2 Beta - 30 words").subs)
      = some (childSum [(2, 1, 20), (3, 2, 30)]) :=
  ⟨by decide, by decide, by decide,
    C6_children_sum_overrides _ _ ⟨1, 2, 999, "2. Body - 999 words"⟩ [(2, 1, 20), (3, 2, 30)]
      (by decide) (by decide) (by decide)⟩

/-! ### Claim C5 -/

theorem dict_shape3 (d : Dict) (h : dictKeys d = [1, 2, 3]) :
    ∃ w1 w2 w3, d = [(1, w1), (2, w2), (3, w3)] := by
  match d with
  | [] => simp [dictKeys] at h
  | [p1] => simp [dictKeys] at h
  | [p1, p2] => simp [dictKeys] at h
  | p1 :: p2 :: p3 :: p4 :: r => simp [dictKeys] at h
  | [(a1, b1), (a2, b2), (a3, b3)] =>
    simp only [dictKeys, List.map_cons, List.map_nil, List.cons.injEq, and_true] at h
    exact ⟨b1, b2, b3, by rw [h.1, h.2.1, h.2.2]⟩

/-- The intro/conclusion forcing on a three-section dict summing to 1000:
sections 1 and 3 are forced to 100 (the drift is pushed into section 2). -/
theorem forceIC_shape3 (w1 w2 w3 : Int) (h : w1 + w2 + w3 = 1000) :
    dictLookup 1 (forceIntroConcl (some 1) (some 3) [(1, w1), (2, w2), (3, w3)]) = some 100 ∧
    dictLookup 3 (forceIntroConcl (some 1) (some 3) [(1, w1), (2, w2), (3, w3)]) = some 100 := by
  have htm : dictSum [(1, w1), (2, w2), (3, w3)] = 1000 := by
    simp [dictSum]
    omega
  have hit : introTarget 1000 = 100 := by
    unfold introTarget
    have hq : ratScale 1000 1 10 = ((100 : Int) : ℚ) := by
      rw [ratScale_eq]
      norm_num
    rw [hq, pyRound_intCast]
  have hforce : forceTargets (some 1) (some 3) 100 [(1, w1), (2, w2), (3, w3)]
      = [(1, 100), (2, w2), (3, 100)] := by
    simp [forceTargets, optForce, dictLookup, updateFirst]
  simp only [forceIntroConcl, htm, hit, hforce]
  rw [if_pos (by norm_num : (1000 : Int) > 0)]
  have hrem : remainingKeys (some 1) (some 3) [(1, 100), (2, w2), (3, 100)] = [2] := by
    simp [remainingKeys, dictKeys]
  rw [hrem]
  simp only [List.isEmpty_cons, if_neg (by decide : ¬ ([2] : List Nat).isEmpty = true)]
  by_cases hd : (1000 : Int) - dictSum [(1, 100), (2, w2), (3, 100)] = 0
  · rw [if_pos hd]
    exact ⟨rfl, rfl⟩
  · rw [if_neg hd]
    have hflt : List.filter (fun p => ([2] : List Nat).contains p.1)
        ([(1, 100), (2, w2), (3, 100)] : Dict) = [(2, w2)] := by
      simp [List.filter]
    rw [hflt]
    simp only [argmaxFirst]
    rw [if_pos (by decide : (2 : Nat) ≠ 0)]
    exact ⟨rfl, rfl⟩

/-- Claim C5 as stated is false on its universal part: on an
Introduction/Body/Conclusion outline whose counts are all zero, the allocator
returns the text unchanged (`main_sum <= 0`), so Introduction stays at 0,
outside `[80, 120]`. -/
theorem C5_counterexample :
    rebalanceStructureText zeroCountsIn (some 1000) = zeroCountsIn ∧
    mainCountIn (rebalanceStructureText zeroCountsIn (some 1000)) 1 = some 0 ∧
    ¬ (80 ≤ (0 : Int) ∧ (0 : Int) ≤ 120) := by
  refine ⟨by decide, by decide, by decide⟩

/-- Claim C5 (amended): the worked example allocates exactly as specified
(Introduction 100, Body 800 with children 320/480, Conclusion 100, and a
`Total Word Count: 1000` line), and for every Introduction/Body/Conclusion
outline with counts summing to a positive value and target 1000, the final
Introduction and Conclusion counts lie within `[80, 120]` (they equal 100). -/
theorem C5_amended (a b c : Int) (ha : 0 ≤ a) (hb : 0 ≤ b) (hc : 0 ≤ c)
    (hpos : 0 < a + b + c) :
    rebalanceStructureText workedExampleIn (some 1000) = workedExampleOut ∧
    (∃ v, dictLookup 1 (icFinal a b c) = some v ∧ 80 ≤ v ∧ v ≤ 120) ∧
    (∃ v, dictLookup 3 (icFinal a b c) = some v ∧ 80 ≤ v ∧ v ≤ 120) := by
  refine ⟨by decide, ?_⟩
  have hds : dictSum [(1, a), (2, b), (3, c)] = a + b + c := by
    simp [dictSum]
    omega
  have hscaled : scaledOf 1000 [(1, a), (2, b), (3, c)] =
      [(1, max 1 (pyRound (ratScale a 1000 (a + b + c)))),
       (2, max 1 (pyRound (ratScale b 1000 (a + b + c)))),
       (3, max 1 (pyRound (ratScale c 1000 (a + b + c))))] := by
    simp only [scaledOf, hds, List.map_cons, List.map_nil]
  set s1 := max 1 (pyRound (ratScale a 1000 (a + b + c))) with hs1
  set s2 := max 1 (pyRound (ratScale b 1000 (a + b + c))) with hs2
  set s3 := max 1 (pyRound (ratScale c 1000 (a + b + c))) with hs3
  have hSq : (0 : ℚ) < ((a + b + c : Int) : ℚ) := by exact_mod_cast hpos
  have hSne : ((a + b + c : Int) : ℚ) ≠ 0 := ne_of_gt hSq
  have hSne2 : ((a : ℚ) + b + c) ≠ 0 := by
    push_cast at hSne
    exact hSne
  have hxsum : ratScale a 1000 (a + b + c) + ratScale b 1000 (a + b + c)
      + ratScale c 1000 (a + b + c) = 1000 := by
    rw [ratScale_eq, ratScale_eq, ratScale_eq]
    push_cast
    field_simp
    ring
  have hxa0 : 0 ≤ ratScale a 1000 (a + b + c) := by
    rw [ratScale_eq]
    apply mul_nonneg (by exact_mod_cast ha)
    apply div_nonneg (by norm_num) (le_of_lt hSq)
  have hxb0 : 0 ≤ ratScale b 1000 (a + b + c) := by
    rw [ratScale_eq]
    apply mul_nonneg (by exact_mod_cast hb)
    apply div_nonneg (by norm_num) (le_of_lt hSq)
  have hxc0 : 0 ≤ ratScale c 1000 (a + b + c) := by
    rw [ratScale_eq]
    apply mul_nonneg (by exact_mod_cast hc)
    apply div_nonneg (by norm_num) (le_of_lt hSq)
  have hb1 : ((s1 : ℤ) : ℚ) ≤ ratScale a 1000 (a + b + c) + 3/2 := pyRound_max1_le _ hxa0
  have hb2 : ((s2 : ℤ) : ℚ) ≤ ratScale b 1000 (a + b + c) + 3/2 := pyRound_max1_le _ hxb0
  have hb3 : ((s3 : ℤ) : ℚ) ≤ ratScale c 1000 (a + b + c) + 3/2 := pyRound_max1_le _ hxc0
  have hc1 : ratScale a 1000 (a + b + c) - 1/2 ≤ ((s1 : ℤ) : ℚ) := le_pyRound_max1 _
  have hc2 : ratScale b 1000 (a + b + c) - 1/2 ≤ ((s2 : ℤ) : ℚ) := le_pyRound_max1 _
  have hc3 : ratScale c 1000 (a + b + c) - 1/2 ≤ ((s3 : ℤ) : ℚ) := le_pyRound_max1 _
  have hsum_le : s1 + s2 + s3 ≤ 1004 := by
    by_contra hcon
    push_neg at hcon
    have hq : ((1005 : ℤ) : ℚ) ≤ ((s1 + s2 + s3 : ℤ) : ℚ) := by exact_mod_cast hcon
    push_cast at hq
    linarith
  have hsum_ge : 999 ≤ s1 + s2 + s3 := by
    by_contra hcon
    push_neg at hcon
    have hq : ((s1 + s2 + s3 : ℤ) : ℚ) ≤ ((998 : ℤ) : ℚ) := by exact_mod_cast (by omega : s1 + s2 + s3 ≤ 998)
    push_cast at hq
    linarith
  have hds2 : dictSum [(1, s1), (2, s2), (3, s3)] = s1 + s2 + s3 := by
    simp [dictSum]
    omega
  have hclamp : scaleClampFree 1000 [(1, a), (2, b), (3, c)] = true := by
    simp only [scaleClampFree, hscaled, hds2]
    by_cases hd : (1000 : Int) - (s1 + s2 + s3) = 0
    · rw [Bool.or_eq_true]
      exact Or.inl (decide_eq_true hd)
    · rw [Bool.or_eq_true]
      right
      cases hm : argmaxFirst [(1, s1), (2, s2), (3, s3)] with
      | none =>
        have hsome := argmaxFirst_isSome [(1, s1), (2, s2), (3, s3)] (by simp)
        rw [hm] at hsome
        simp at hsome
      | some p =>
        simp only []
        apply decide_eq_true
        have h1 := argmaxFirst_ge _ p hm (1, s1) (by simp)
        have h2 := argmaxFirst_ge _ p hm (2, s2) (by simp)
        have h3 := argmaxFirst_ge _ p hm (3, s3) (by simp)
        simp only [] at h1 h2 h3
        omega
  have hnd0 : (dictKeys [(1, a), (2, b), (3, c)]).Nodup := by
    show ([1, 2, 3] : List Nat).Nodup
    decide
  have hsum1 : dictSum (scaleToTarget 1000 [(1, a), (2, b), (3, c)]) = 1000 :=
    dictSum_scaleToTarget 1000 _ hnd0 hclamp
  have hkeys1 : dictKeys (scaleToTarget 1000 [(1, a), (2, b), (3, c)]) = [1, 2, 3] := by
    rw [dictKeys_scaleToTarget]
    rfl
  obtain ⟨w1, w2, w3, hw⟩ := dict_shape3 _ hkeys1
  have hw123 : w1 + w2 + w3 = 1000 := by
    rw [hw] at hsum1
    simp [dictSum] at hsum1
    omega
  have hic : icFinal a b c = forceIntroConcl (some 1) (some 3) [(1, w1), (2, w2), (3, w3)] := by
    unfold icFinal coreCounts
    rw [show findMainByName "introduction" (icMains a b c) = some 1 from rfl,
      show findMainByName "conclusion" (icMains a b c) = some 3 from rfl,
      show buildMainCounts (icMains a b c) [] = [(1, a), (2, b), (3, c)] from rfl, hw]
  obtain ⟨hf1, hf3⟩ := forceIC_shape3 w1 w2 w3 hw123
  rw [hic]
  exact ⟨⟨100, hf1, by norm_num, by norm_num⟩, ⟨100, hf3, by norm_num, by norm_num⟩⟩

/-- Witness for C5 (amended) at counts 50 / 50 / 400. -/
theorem C5_amended_witness :
    (0 : Int) ≤ 50 ∧ (0 : Int) ≤ 50 ∧ (0 : Int) ≤ 400 ∧ (0 : Int) < 50 + 50 + 400 ∧
    (∃ v, dictLookup 1 (icFinal 50 50 400) = some v ∧ 80 ≤ v ∧ v ≤ 120) ∧
    (∃ v, dictLookup 3 (icFinal 50 50 400) = some v ∧ 80 ≤ v ∧ v ≤ 120) :=
  ⟨by decide, by decide, by decide, by decide,
    (C5_amended 50 50 400 (by decide) (by decide) (by decide) (by decide)).2.1,
    (C5_amended 50 50 400 (by decide) (by decide) (by decide) (by decide)).2.2⟩

/-! ### Fixed-point lemmas for the allocator core (claim C4) -/

theorem dictLookup_mem (k : Nat) (v : Int) (d : Dict) (h : dictLookup k d = some v) :
    (k, v) ∈ d := by
  induction d with
  | nil => simp [dictLookup] at h
  | cons p rest ih =>
    obtain ⟨a, b⟩ := p
    by_cases hk : a = k
    · rw [dictLookup, if_pos hk] at h
      cases h
      rw [hk]
      exact List.mem_cons_self _ _
    · rw [dictLookup, if_neg hk] at h
      exact List.mem_cons_of_mem _ (ih h)

theorem map_id_of_mem {α : Type} (l : List α) (f : α → α) (h : ∀ a ∈ l, f a = a) :
    l.map f = l := by
  induction l with
  | nil => rfl
  | cons x rest ih =>
    rw [List.map_cons, h x (List.mem_cons_self _ _), ih (fun a ha => h a (List.mem_cons_of_mem _ ha))]

theorem ratScale_self (v T : Int) (hT : T ≠ 0) : ratScale v T T = (v : ℚ) := by
  rw [ratScale_eq]
  have hq : (T : ℚ) ≠ 0 := Int.cast_ne_zero.mpr hT
  field_simp

theorem scaledOf_fixed (T : Int) (mc : Dict) (hsum : dictSum mc = T) (hT : T ≠ 0)
    (hone : ∀ p ∈ mc, 1 ≤ p.2) : scaledOf T mc = mc := by
  unfold scaledOf
  apply map_id_of_mem
  intro p hp
  rw [hsum, ratScale_self p.2 T hT, pyRound_intCast, max_eq_right (hone p hp)]

theorem scaleToTarget_fixed (T : Int) (mc : Dict) (hsum : dictSum mc = T) (hT : T ≠ 0)
    (hone : ∀ p ∈ mc, 1 ≤ p.2) : scaleToTarget T mc = mc := by
  simp only [scaleToTarget, scaledOf_fixed T mc hsum hT hone, hsum]
  rw [if_pos (by omega : T - T = 0)]

theorem rescaleItems_length (pt : Int) (counts : List Int) :
    (rescaleItems pt counts).length = counts.length := by
  simp only [rescaleItems]
  split
  · simp
  · split
    · rw [List.length_set]
      simp
    · simp

theorem rescaleItems_val_ge_one (pt : Int) (counts : List Int) :
    ∀ v ∈ rescaleItems pt counts, 1 ≤ v := by
  intro v hv
  simp only [rescaleItems] at hv
  split at hv
  · obtain ⟨c, _, hc⟩ := List.mem_map.mp hv
    rw [← hc]
    exact le_max_left _ _
  · split at hv
    · rcases List.mem_or_eq_of_mem_set hv with h1 | h1
      · obtain ⟨c, _, hc⟩ := List.mem_map.mp h1
        rw [← hc]
        exact le_max_left _ _
      · rw [h1]
        exact le_max_left _ _
    · obtain ⟨c, _, hc⟩ := List.mem_map.mp hv
      rw [← hc]
      exact le_max_left _ _

theorem rescaleItems_fixed (pt : Int) (counts : List Int) (hsum : counts.sum = pt)
    (hpt : pt ≠ 0) (hone : ∀ c ∈ counts, 1 ≤ c) : rescaleItems pt counts = counts := by
  simp only [rescaleItems, hsum]
  have hmap : counts.map (fun c => max 1 (pyRound (ratScale c pt pt))) = counts := by
    apply map_id_of_mem
    intro c hc
    rw [ratScale_self c pt hpt, pyRound_intCast, max_eq_right (hone c hc)]
  rw [hmap, hsum, if_pos (by omega : pt - pt = 0)]

theorem zipItems_counts (items : List SubItem) (vs : List Int)
    (h : items.length = vs.length) :
    (zipItems items vs).map (fun it => it.2.2) = vs := by
  induction items generalizing vs with
  | nil =>
    cases vs with
    | nil => rfl
    | cons v r => simp at h
  | cons it its ih =>
    cases vs with
    | nil => simp at h
    | cons v r =>
      simp only [zipItems, List.map_cons, List.cons.injEq]
      exact ⟨trivial, ih r (by simpa using h)⟩

theorem childSum_zipItems (items : List SubItem) (vs : List Int)
    (h : items.length = vs.length) : childSum (zipItems items vs) = vs.sum := by
  unfold childSum
  rw [zipItems_counts items vs h]

theorem zipItems_length (items : List SubItem) (vs : List Int)
    (h : items.length = vs.length) : (zipItems items vs).length = items.length := by
  induction items generalizing vs with
  | nil => cases vs <;> rfl
  | cons it its ih =>
    cases vs with
    | nil => simp at h
    | cons v r =>
      simp only [zipItems, List.length_cons]
      rw [ih r (by simpa using h)]

theorem zipItems_self (items : List SubItem) (vs : List Int)
    (h : items.length = vs.length) : zipItems (zipItems items vs) vs = zipItems items vs := by
  induction items generalizing vs with
  | nil =>
    cases vs with
    | nil => rfl
    | cons v r => rfl
  | cons it its ih =>
    cases vs with
    | nil => simp at h
    | cons v r =>
      simp only [zipItems, List.cons.injEq]
      exact ⟨trivial, ih r (by simpa using h)⟩

theorem mainsRewrite_map_num (mains : List MainEntry) (mc2 : Dict) :
    (mainsRewrite mains mc2).map MainEntry.num = mains.map MainEntry.num := by
  unfold mainsRewrite
  rw [List.map_map]
  rfl

theorem subsLookup_subsRewrite (subs : List (Nat × List SubItem)) (mc2 : Dict) (k : Nat) :
    subsLookup k (subsRewrite subs mc2) =
      match subsLookup k subs with
      | some items => some (rewriteItems mc2 k items)
      | none => none := by
  induction subs with
  | nil => rfl
  | cons pr rest ih =>
    obtain ⟨a, its⟩ := pr
    by_cases ha : a = k
    · subst ha
      simp [subsRewrite, subsLookup]
    · simp only [subsRewrite, List.map_cons, subsLookup, if_neg ha]
      simpa [subsRewrite] using ih

theorem subsLookup_mem (k : Nat) (its : List SubItem) (subs : List (Nat × List SubItem))
    (h : subsLookup k subs = some its) : (k, its) ∈ subs := by
  induction subs with
  | nil => simp [subsLookup] at h
  | cons pr rest ih =>
    obtain ⟨a, b⟩ := pr
    by_cases ha : a = k
    · rw [subsLookup, if_pos ha] at h
      cases h
      rw [ha]
      exact List.mem_cons_self _ _
    · rw [subsLookup, if_neg ha] at h
      exact List.mem_cons_of_mem _ (ih h)

theorem childRescaleExact_spec (mc2 : Dict) (subs : List (Nat × List SubItem))
    (h : childRescaleExact mc2 subs = true) :
    ∀ pr ∈ subs, ∀ pt, dictLookup pr.1 mc2 = some pt → pt ≠ 0 → 0 < childSum pr.2 →
      (rescaleItems pt (pr.2.map (fun it => it.2.2))).sum = pt := by
  intro pr hpr pt hlk hpt hcs
  unfold childRescaleExact at h
  rw [List.all_eq_true] at h
  have h2 := h pr hpr
  rw [hlk] at h2
  simp only [] at h2
  rw [if_neg hpt, if_neg (by omega : ¬ childSum pr.2 ≤ 0)] at h2
  exact decide_eq_true_iff.mp h2

theorem dict_eq_of_keys_lookup (d1 d2 : Dict)
    (hk : dictKeys d1 = dictKeys d2) (hnd : (dictKeys d1).Nodup)
    (hl : ∀ n, dictLookup n d1 = dictLookup n d2) : d1 = d2 := by
  induction d1 generalizing d2 with
  | nil =>
    cases d2 with
    | nil => rfl
    | cons p r => simp [dictKeys] at hk
  | cons p r1 ih =>
    cases d2 with
    | nil => simp [dictKeys] at hk
    | cons q r2 =>
      obtain ⟨a, b⟩ := p
      obtain ⟨a2, b2⟩ := q
      simp only [dictKeys, List.map_cons, List.cons.injEq] at hk
      have hval := hl a
      rw [dictLookup, if_pos rfl, dictLookup, if_pos hk.1.symm] at hval
      cases hval
      simp only [dictKeys, List.map_cons, List.nodup_cons] at hnd
      have hrest : r1 = r2 := by
        apply ih r2 hk.2 hnd.2
        intro n
        by_cases hn : a = n
        · subst hn
          have h1 : dictLookup a r1 = none := by
            cases hr : dictLookup a r1 with
            | none => rfl
            | some w =>
              exact absurd (List.mem_map_of_mem Prod.fst (dictLookup_mem _ _ _ hr)) hnd.1
          have h2 : dictLookup a r2 = none := by
            cases hr : dictLookup a r2 with
            | none => rfl
            | some w =>
              have hmem := List.mem_map_of_mem Prod.fst (dictLookup_mem _ _ _ hr)
              rw [← hk.2] at hmem
              exact absurd hmem hnd.1
          rw [h1, h2]
        · have := hl n
          rw [dictLookup, if_neg hn, dictLookup, if_neg (hk.1 ▸ hn)] at this
          exact this
      rw [hk.1, hrest]

theorem dictLookup_none_of_not_mem (k : Nat) (d : Dict) (h : k ∉ dictKeys d) :
    dictLookup k d = none := by
  cases hl : dictLookup k d with
  | none => rfl
  | some v => exact absurd ((dictLookup_isSome_iff k d).mp (by rw [hl]; rfl)) h

theorem optForce_lookup_hit (t : Int) (k : Nat) (d : Dict) (hk : k ≠ 0)
    (hs : (dictLookup k d).isSome) :
    dictLookup k (optForce t (some k) d) = some (max 1 t) := by
  simp only [optForce]
  rw [if_pos (by simp [hk, hs])]
  exact dictLookup_updateFirst_self k (max 1 t) d hs

theorem optForce_lookup_preserve (t : Int) (k : Nat) (o : Option Nat) (d : Dict)
    (h : dictLookup k d = some (max 1 t)) :
    dictLookup k (optForce t o d) = some (max 1 t) := by
  match o with
  | none => exact h
  | some c =>
    simp only [optForce]
    split
    · by_cases hck : c = k
      · subst hck
        exact dictLookup_updateFirst_self c (max 1 t) d (by rw [h]; rfl)
      · rw [dictLookup_updateFirst_other c k (max 1 t) d (fun he => hck he.symm)]
        exact h
    · exact h

theorem forceTargets_lookup_ic (iNum cNum : Option Nat) (t : Int) (mc : Dict) (k : Nat)
    (hic : iNum = some k ∨ cNum = some k) (hk : k ≠ 0)
    (hs : (dictLookup k mc).isSome) :
    dictLookup k (forceTargets iNum cNum t mc) = some (max 1 t) := by
  unfold forceTargets
  by_cases hc : cNum = some k
  · subst hc
    apply optForce_lookup_hit t k _ hk
    rw [dictLookup_isSome_iff] at hs ⊢
    rw [dictKeys_optForce]
    exact hs
  · have hi : iNum = some k := hic.resolve_right hc
    subst hi
    exact optForce_lookup_preserve t k cNum _ (optForce_lookup_hit t k mc hk hs)

theorem forceIntroConcl_lookup_ic (iNum cNum : Option Nat) (mc : Dict) (k : Nat)
    (hpos : 0 < dictSum mc)
    (hic : iNum = some k ∨ cNum = some k) (hk : k ≠ 0)
    (hs : (dictLookup k mc).isSome) :
    dictLookup k (forceIntroConcl iNum cNum mc)
      = some (max 1 (introTarget (dictSum mc))) := by
  have hF := forceTargets_lookup_ic iNum cNum (introTarget (dictSum mc)) mc k hic hk hs
  simp only [forceIntroConcl]
  rw [if_pos (by omega : dictSum mc > 0)]
  split
  · exact hF
  · split
    · exact hF
    · split
      next p heq =>
        split
        next hp0 =>
          have hpmem := argmaxFirst_mem _ p heq
          have hpr : p.1 ∈ remainingKeys iNum cNum
              (forceTargets iNum cNum (introTarget (dictSum mc)) mc) :=
            List.elem_iff.mp (List.mem_filter.mp hpmem).2
          have hni : ¬ (some p.1 = iNum ∨ some p.1 = cNum) := by
            have := (List.mem_filter.mp hpr).2
            simpa using this
          have hne : k ≠ p.1 := by
            intro he
            rcases hic with hi | hc2
            · exact hni (Or.inl (by rw [← he, hi]))
            · exact hni (Or.inr (by rw [← he, hc2]))
          rw [dictLookup_updateFirst_other p.1 k _ _ hne]
          exact hF
        next => exact hF
      next => exact hF

theorem optForce_fixed (t : Int) (o : Option Nat) (d : Dict)
    (h : ∀ c, o = some c → c ≠ 0 → (dictLookup c d).isSome →
        dictLookup c d = some (max 1 t)) :
    optForce t o d = d := by
  match o with
  | none => rfl
  | some c =>
    simp only [optForce]
    split
    next hcond =>
      simp only [Bool.and_eq_true, decide_eq_true_eq] at hcond
      exact updateFirst_eq_self c (max 1 t) d (h c rfl hcond.1 hcond.2)
    next => rfl

theorem forceTargets_fixed (iNum cNum : Option Nat) (t : Int) (mc : Dict)
    (h : ∀ c, (iNum = some c ∨ cNum = some c) → c ≠ 0 → (dictLookup c mc).isSome →
        dictLookup c mc = some (max 1 t)) :
    forceTargets iNum cNum t mc = mc := by
  unfold forceTargets
  rw [optForce_fixed t iNum mc (fun c hc => h c (Or.inl hc))]
  exact optForce_fixed t cNum mc (fun c hc => h c (Or.inr hc))

theorem forceIntroConcl_fixed (iNum cNum : Option Nat) (mc : Dict)
    (hpos : 0 < dictSum mc)
    (h : ∀ c, (iNum = some c ∨ cNum = some c) → c ≠ 0 → (dictLookup c mc).isSome →
        dictLookup c mc = some (max 1 (introTarget (dictSum mc)))) :
    forceIntroConcl iNum cNum mc = mc := by
  have hF : forceTargets iNum cNum (introTarget (dictSum mc)) mc = mc :=
    forceTargets_fixed _ _ _ _ h
  simp only [forceIntroConcl, hF]
  rw [if_pos (by omega : dictSum mc > 0)]
  split
  · rfl
  · rw [if_pos (by omega : dictSum mc - dictSum mc = 0)]

theorem rewriteItems_fixed (mc2 : Dict) (k : Nat) (items : List SubItem)
    (hspec : ∀ pt, dictLookup k mc2 = some pt → pt ≠ 0 → 0 < childSum items →
        (rescaleItems pt (items.map (fun it => it.2.2))).sum = pt)
    (hpos : ∀ pt, dictLookup k mc2 = some pt → 1 ≤ pt) :
    rewriteItems mc2 k (rewriteItems mc2 k items) = rewriteItems mc2 k items := by
  cases hlk : dictLookup k mc2 with
  | none => simp [rewriteItems, hlk]
  | some pt =>
    have h1 : 1 ≤ pt := hpos pt hlk
    have hpt0 : ¬ pt = 0 := by omega
    by_cases hcs : childSum items ≤ 0
    · simp only [rewriteItems, hlk, if_neg hpt0, if_pos hcs]
    · have hcsp : 0 < childSum items := by omega
      have hsum := hspec pt hlk hpt0 hcsp
      have hlen2 : items.length = (rescaleItems pt (items.map (fun it => it.2.2))).length := by
        rw [rescaleItems_length, List.length_map]
      have hfirst : rewriteItems mc2 k items
          = zipItems items (rescaleItems pt (items.map (fun it => it.2.2))) := by
        simp only [rewriteItems, hlk]
        rw [if_neg hpt0, if_neg hcs]
      have hcounts : (zipItems items (rescaleItems pt (items.map (fun it => it.2.2)))).map
            (fun it => it.2.2) = rescaleItems pt (items.map (fun it => it.2.2)) :=
        zipItems_counts _ _ hlen2
      have hcs2 : childSum (zipItems items (rescaleItems pt (items.map (fun it => it.2.2)))) = pt := by
        rw [childSum_zipItems _ _ hlen2, hsum]
      rw [hfirst]
      simp only [rewriteItems, hlk]
      rw [if_neg hpt0,
        if_neg (by omega :
          ¬ childSum (zipItems items (rescaleItems pt (items.map (fun it => it.2.2)))) ≤ 0)]
      rw [hcounts]
      rw [rescaleItems_fixed pt _ hsum (by omega) (rescaleItems_val_ge_one pt _)]
      exact zipItems_self items _ hlen2

theorem subsRewrite_fixed (subs : List (Nat × List SubItem)) (mc2 : Dict)
    (h3 : childRescaleExact mc2 subs = true)
    (hpos : ∀ k pt, dictLookup k mc2 = some pt → 1 ≤ pt) :
    subsRewrite (subsRewrite subs mc2) mc2 = subsRewrite subs mc2 := by
  simp only [subsRewrite, List.map_map]
  apply List.map_congr_left
  intro pr hpr
  simp only [Function.comp]
  exact congrArg (fun l => (pr.1, l))
    (rewriteItems_fixed mc2 pr.1 pr.2
      (fun pt hlk hpt hcs => childRescaleExact_spec mc2 subs h3 pr hpr pt hlk hpt hcs)
      (fun pt hlk => hpos pr.1 pt hlk))

theorem buildMainCounts_rewrite (mains : List MainEntry) (subs : List (Nat × List SubItem))
    (mc2 : Dict)
    (hkeys : dictKeys mc2 = dictKeys (buildMainCounts mains subs))
    (h3 : childRescaleExact mc2 subs = true)
    (hpos : ∀ k pt, dictLookup k mc2 = some pt → 1 ≤ pt) :
    buildMainCounts (mainsRewrite mains mc2) (subsRewrite subs mc2) = mc2 := by
  have hknew : dictKeys (buildMainCounts (mainsRewrite mains mc2) (subsRewrite subs mc2))
      = dictKeys (buildMainCounts mains subs) := by
    unfold buildMainCounts
    exact buildWith_keys_eq _ _ _ _ (mainsRewrite_map_num mains mc2)
  apply dict_eq_of_keys_lookup
  · rw [hknew, hkeys]
  · exact buildWith_nodup _ _
  · intro n
    by_cases hn : n ∈ dictKeys (buildMainCounts (mainsRewrite mains mc2) (subsRewrite subs mc2))
    · have hn2 : n ∈ dictKeys mc2 := by rw [hkeys, ← hknew]; exact hn
      obtain ⟨v, hv⟩ := Option.isSome_iff_exists.mp ((dictLookup_isSome_iff n mc2).mpr hn2)
      rw [hv]
      unfold buildMainCounts at hn ⊢
      apply buildWith_lookup_at _ v n _ ((buildWith_keys_mem _ _ n).mp hn)
      intro e2 he2 hnum
      obtain ⟨e, he, rfl⟩ := List.mem_map.mp he2
      have hen : e.num = n := hnum
      have hget : (dictLookup e.num mc2).getD e.count = v := by rw [hen, hv]; rfl
      have h1v : 1 ≤ v := hpos n v hv
      have hv0 : ¬ v = 0 := by omega
      unfold derivedCount
      simp only []
      rw [hen, subsLookup_subsRewrite]
      cases hsl : subsLookup n subs with
      | none =>
        simp only [hv]
        rfl
      | some items =>
        simp only [rewriteItems, hen, hv]
        rw [if_neg hv0]
        by_cases hcs : childSum items ≤ 0
        · rw [if_pos hcs, if_neg (by omega : ¬ childSum items > 0)]
          rfl
        · rw [if_neg hcs]
          have hcsp : 0 < childSum items := by omega
          have hsum := childRescaleExact_spec mc2 subs h3 (n, items)
            (subsLookup_mem n items subs hsl) v hv hv0 hcsp
          have hlen2 : items.length
              = (rescaleItems v (items.map (fun it => it.2.2))).length := by
            rw [rescaleItems_length, List.length_map]
          have hcs2 : childSum (zipItems items
              (rescaleItems v (items.map (fun it => it.2.2)))) = v := by
            rw [childSum_zipItems _ _ hlen2, hsum]
          rw [if_pos (by omega : childSum (zipItems items
            (rescaleItems v (items.map (fun it => it.2.2)))) > 0)]
          exact hcs2
    · have hn2 : n ∉ dictKeys mc2 := by rw [hkeys, ← hknew]; exact hn
      rw [dictLookup_none_of_not_mem n _ hn, dictLookup_none_of_not_mem n _ hn2]

/-- Claim C4 (counterexample): the allocator is not idempotent.  On the
outline `nestedClampIn` with target 335, the first pass clamps a scaled
count at the floor of 1 and its output re-parses to different counts, so a
second pass with the same target changes the text again. -/
theorem C4_counterexample :
    rebalanceStructureText (rebalanceStructureText nestedClampIn (some 335)) (some 335)
      ≠ rebalanceStructureText nestedClampIn (some 335) := by decide

/-- Claim C4 (amended): the allocator core is idempotent whenever no
`max(1, ·)` clamp bites, i.e. when the scaling pass lands exactly on the
target, the intro/conclusion forcing preserves the total, and every child
rescaling is exact.  Under those conditions, re-running the core on the
counts that re-parse from its own output reproduces the same top-level
counts, and rewriting the subsections a second time changes nothing. -/
theorem C4_amended (T : Int) (iNum cNum : Option Nat) (mains : List MainEntry)
    (subs : List (Nat × List SubItem)) (hT : 1 ≤ T)
    (h1 : dictSum (scaleToTarget T (buildMainCounts mains subs)) = T)
    (h2 : dictSum (coreCounts T iNum cNum mains subs) = T)
    (h3 : childRescaleExact (coreCounts T iNum cNum mains subs) subs = true) :
    coreCounts T iNum cNum
        (mainsRewrite mains (coreCounts T iNum cNum mains subs))
        (subsRewrite subs (coreCounts T iNum cNum mains subs))
      = coreCounts T iNum cNum mains subs ∧
    subsRewrite (subsRewrite subs (coreCounts T iNum cNum mains subs))
        (coreCounts T iNum cNum mains subs)
      = subsRewrite subs (coreCounts T iNum cNum mains subs) := by
  set mc2 := coreCounts T iNum cNum mains subs with hmc2
  have hge : ∀ p ∈ mc2, 1 ≤ p.2 := by
    rw [hmc2]
    unfold coreCounts
    exact forceIntroConcl_val_ge_one _ _ _
      (fun p hp => scaleToTarget_val_ge_one T _ p hp)
  have hposl : ∀ k pt, dictLookup k mc2 = some pt → 1 ≤ pt :=
    fun k pt h => hge (k, pt) (dictLookup_mem k pt mc2 h)
  have hkeys : dictKeys mc2 = dictKeys (buildMainCounts mains subs) := by
    rw [hmc2]
    unfold coreCounts
    rw [dictKeys_forceIntroConcl, dictKeys_scaleToTarget]
  have hbuild : buildMainCounts (mainsRewrite mains mc2) (subsRewrite subs mc2) = mc2 :=
    buildMainCounts_rewrite mains subs mc2 hkeys h3 hposl
  have hscale : scaleToTarget T mc2 = mc2 :=
    scaleToTarget_fixed T mc2 h2 (by omega) hge
  have hic : ∀ c, (iNum = some c ∨ cNum = some c) → c ≠ 0 →
      (dictLookup c mc2).isSome →
      dictLookup c mc2 = some (max 1 (introTarget (dictSum mc2))) := by
    intro c hc hc0 hcs
    have hcs1 : (dictLookup c (scaleToTarget T (buildMainCounts mains subs))).isSome := by
      rw [dictLookup_isSome_iff] at hcs ⊢
      rw [dictKeys_scaleToTarget]
      rw [hkeys] at hcs
      exact hcs
    have hlk := forceIntroConcl_lookup_ic iNum cNum
      (scaleToTarget T (buildMainCounts mains subs)) c (by rw [h1]; omega) hc hc0 hcs1
    rw [h1] at hlk
    rw [h2, hmc2]
    unfold coreCounts
    exact hlk
  have hforce : forceIntroConcl iNum cNum mc2 = mc2 :=
    forceIntroConcl_fixed iNum cNum mc2 (by rw [h2]; omega) hic
  constructor
  · unfold coreCounts
    rw [hbuild, hscale]
    exact hforce
  · exact subsRewrite_fixed subs mc2 h3 hposl

/-- Witness for C4 (amended) at the worked example with target 1000. -/
theorem C4_amended_witness :
    (1 : Int) ≤ 1000 ∧
    dictSum (scaleToTarget 1000 (buildMainCounts (parsedOf workedExampleIn).mains
        (parsedOf workedExampleIn).subs)) = 1000 ∧
    dictSum (coreCounts 1000
        (findMainByName "introduction" (parsedOf workedExampleIn).mains)
        (findMainByName "conclusion" (parsedOf workedExampleIn).mains)
        (parsedOf workedExampleIn).mains (parsedOf workedExampleIn).subs) = 1000 ∧
    childRescaleExact (coreCounts 1000
        (findMainByName "introduction" (parsedOf workedExampleIn).mains)
        (findMainByName "conclusion" (parsedOf workedExampleIn).mains)
        (parsedOf workedExampleIn).mains (parsedOf workedExampleIn).subs)
        (parsedOf workedExampleIn).subs = true ∧
    (coreCounts 1000
        (findMainByName "introduction" (parsedOf workedExampleIn).mains)
        (findMainByName "conclusion" (parsedOf workedExampleIn).mains)
        (mainsRewrite (parsedOf workedExampleIn).mains
          (coreCounts 1000
            (findMainByName "introduction" (parsedOf workedExampleIn).mains)
            (findMainByName "conclusion" (parsedOf workedExampleIn).mains)
            (parsedOf workedExampleIn).mains (parsedOf workedExampleIn).subs))
        (subsRewrite (parsedOf workedExampleIn).subs
          (coreCounts 1000
            (findMainByName "introduction" (parsedOf workedExampleIn).mains)
            (findMainByName "conclusion" (parsedOf workedExampleIn).mains)
            (parsedOf workedExampleIn).mains (parsedOf workedExampleIn).subs))
      = coreCounts 1000
        (findMainByName "introduction" (parsedOf workedExampleIn).mains)
        (findMainByName "conclusion" (parsedOf workedExampleIn).mains)
        (parsedOf workedExampleIn).mains (parsedOf workedExampleIn).subs ∧
    subsRewrite (subsRewrite (parsedOf workedExampleIn).subs
          (coreCounts 1000
            (findMainByName "introduction" (parsedOf workedExampleIn).mains)
            (findMainByName "conclusion" (parsedOf workedExampleIn).mains)
            (parsedOf workedExampleIn).mains (parsedOf workedExampleIn).subs))
        (coreCounts 1000
          (findMainByName "introduction" (parsedOf workedExampleIn).mains)
          (findMainByName "conclusion" (parsedOf workedExampleIn).mains)
          (parsedOf workedExampleIn).mains (parsedOf workedExampleIn).subs)
      = subsRewrite (parsedOf workedExampleIn).subs
          (coreCounts 1000
            (findMainByName "introduction" (parsedOf workedExampleIn).mains)
            (findMainByName "conclusion" (parsedOf workedExampleIn).mains)
            (parsedOf workedExampleIn).mains (parsedOf workedExampleIn).subs)) :=
  ⟨by decide, by decide, by decide, by decide,
    C4_amended 1000
      (findMainByName "introduction" (parsedOf workedExampleIn).mains)
      (findMainByName "conclusion" (parsedOf workedExampleIn).mains)
      (parsedOf workedExampleIn).mains (parsedOf workedExampleIn).subs
      (by decide) (by decide) (by decide) (by decide)⟩

/-- Claim C7 (counterexample): on `"a 4-page report"` the hint extractor
returns nothing, not `"1100"`: the page pattern requires whitespace (or
nothing) between the number and `page`, and the hyphen defeats it. -/
theorem C7_counterexample :
    extractWordCountHint "a 4-page report" = none ∧
    (none : Option String) ≠ some "1100" := by
  refine ⟨by decide, by decide⟩

/-- Claim C7 (amended): the hint extractor returns `"2500"` on
`"Please write about 2,500 words on climate policy"`; it converts page
counts at 275 words per page when the number is separated from `page` by
whitespace (`"a 4 page report"` gives `"1100"`, `"10 pages"` gives
`"2750"`) but returns nothing on the hyphenated `"a 4-page report"`; and
word-count patterns take priority over page counts: an explicit range,
then a single count, then a labeled count, then pages. -/
theorem C7_amended :
    extractWordCountHint "Please write about 2,500 words on climate policy" = some "2500" ∧
    extractWordCountHint "a 4-page report" = none ∧
    extractWordCountHint "a 4 page report" = some "1100" ∧
    extractWordCountHint "2500-3000 words" = some "2500-3000" ∧
    extractWordCountHint "2500 words" = some "2500" ∧
    extractWordCountHint "word count: 2500" = some "2500" ∧
    extractWordCountHint "10 pages" = some "2750" ∧
    extractWordCountHint "5 pages or 2000 words" = some "2000" := by
  refine ⟨by decide, by decide, by decide, by decide, by decide, by decide,
    by decide, by decide⟩

theorem hasSubstr_append_right (pat a b : List Char) (h : hasSubstr pat b = true) :
    hasSubstr pat (a ++ b) = true := by
  induction a with
  | nil => exact h
  | cons c a2 ih =>
    show (startsWithList pat (c :: (a2 ++ b)) || hasSubstr pat (a2 ++ b)) = true
    rw [ih]
    exact Bool.or_true _

theorem plag_report_contains_passed (n : Nat) :
    strContains (plagReportText n) "Status: PASSED" = true := by
  unfold strContains plagReportText
  show hasSubstr _ (String.data _) = true
  rw [String.data_append, String.data_append]
  rw [List.append_assoc]
  exact hasSubstr_append_right _ _ _
    (hasSubstr_append_right _ (toString n).data _ (by decide))

theorem ai_report_contains_acceptable (n : Nat) :
    strContains (aiReportText n) "Status: ACCEPTABLE" = true := by
  unfold strContains aiReportText
  show hasSubstr _ (String.data _) = true
  rw [String.data_append, String.data_append]
  rw [List.append_assoc]
  exact hasSubstr_append_right _ _ _
    (hasSubstr_append_right _ (toString n).data _ (by decide))

/-- Claim C9 (counterexample): the tolerance is not "within 2 percent of each
section target and within 10 percent of the grand total".  A 95-word draft
against a declared total of 100 is within 10 percent and contains no `#`,
yet `generate_content` fires the corrective re-attempt and returns the
second response: the code checks 2 percent of the grand total only. -/
theorem C9_counterexample :
    (90 : Int) ≤ 95 ∧ (95 : Int) ≤ 110 ∧
    hashPresent (contentClean c9Draft) = false ∧
    countWordRuns (contentClean c9Draft) = 95 ∧
    parseTotalFromStructure c9Struct = some 100 ∧
    generateContent c9Struct (some c9Draft) (some "SECOND") = (some "SECOND", none) ∧
    contentClean c9Draft ≠ "SECOND" := by
  refine ⟨by decide, by decide, by decide, by decide, by decide, by decide, by decide⟩

/-- Claim C9 (amended): for a non-empty structure text and a non-empty first
draft, `generate_content` retries exactly when the cleaned draft's word count
is outside 2 percent of the declared grand total (when one parses and is
non-zero) or a `#` survives cleaning; without retry the first draft is
returned; with retry the second response replaces it only when truthy,
otherwise the first draft is kept as best effort; and the error is always
`none`. -/
theorem C9_amended (structText : String) (r2 : Option String) (s1 : String)
    (hst : ¬ structText = "") (hs1 : ¬ s1 = "") :
    (contentNeedsRetry (parseTotalFromStructure structText) (contentClean s1) = true ↔
      ((∃ t, parseTotalFromStructure structText = some t ∧ t ≠ 0 ∧
          (100 * (countWordRuns (contentClean s1) : Int) < 98 * t ∨
           100 * (countWordRuns (contentClean s1) : Int) > 102 * t)) ∨
        hashPresent (contentClean s1) = true)) ∧
    (contentNeedsRetry (parseTotalFromStructure structText) (contentClean s1) = false →
      generateContent structText (some s1) r2 = (some (contentClean s1), none)) ∧
    (contentNeedsRetry (parseTotalFromStructure structText) (contentClean s1) = true →
      generateContent structText (some s1) r2 =
        (match r2 with
         | some s2 => if s2 = "" then (some (contentClean s1), none)
                      else (some (contentClean s2), none)
         | none => (some (contentClean s1), none))) ∧
    (generateContent structText (some s1) r2).2 = none := by
  have hG : generateContent structText (some s1) r2 =
      (if contentNeedsRetry (parseTotalFromStructure structText) (contentClean s1) then
        match r2 with
        | some s2 => if s2 = "" then (some (contentClean s1), none)
                     else (some (contentClean s2), none)
        | none => (some (contentClean s1), none)
      else (some (contentClean s1), none)) := by
    simp only [generateContent, if_neg hst, if_neg hs1]
  refine ⟨?_, ?_, ?_, ?_⟩
  · simp only [contentNeedsRetry]
    cases hp : parseTotalFromStructure structText with
    | none =>
      simp only [Bool.false_or]
      constructor
      · intro h
        exact Or.inr h
      · rintro (⟨t, ht, hrest⟩ | h)
        · exact absurd ht (by simp)
        · exact h
    | some t =>
      by_cases ht0 : t = 0
      · subst ht0
        simp only []
        rw [if_neg (by simp)]
        simp only [Bool.false_or]
        constructor
        · intro h
          exact Or.inr h
        · rintro (⟨t2, ht2, h02, hrest⟩ | h)
          · cases ht2
            exact absurd rfl h02
          · exact h
      · simp only []
        rw [if_pos ht0]
        simp only [Bool.or_eq_true, decide_eq_true_eq]
        constructor
        · rintro ((hlt | hgt) | hh)
          · exact Or.inl ⟨t, rfl, ht0, Or.inl hlt⟩
          · exact Or.inl ⟨t, rfl, ht0, Or.inr hgt⟩
          · exact Or.inr hh
        · rintro (⟨t2, ht2, h02, hw⟩ | hh)
          · cases ht2
            exact Or.inl hw
          · exact Or.inr hh
  · intro h
    rw [hG, if_neg (by rw [h]; exact Bool.false_ne_true)]
  · intro h
    rw [hG, if_pos h]
  · rw [hG]
    split
    · match r2 with
      | none => rfl
      | some s2 =>
        simp only []
        split
        · rfl
        · rfl
    · rfl

/-- Witness for C9 (amended): the 95-word draft against a 100-word total,
with no second response available. -/
theorem C9_amended_witness :
    ¬ c9Struct = "" ∧ ¬ c9Draft = "" ∧
    ((contentNeedsRetry (parseTotalFromStructure c9Struct) (contentClean c9Draft) = true ↔
      ((∃ t, parseTotalFromStructure c9Struct = some t ∧ t ≠ 0 ∧
          (100 * (countWordRuns (contentClean c9Draft) : Int) < 98 * t ∨
           100 * (countWordRuns (contentClean c9Draft) : Int) > 102 * t)) ∨
        hashPresent (contentClean c9Draft) = true)) ∧
    (contentNeedsRetry (parseTotalFromStructure c9Struct) (contentClean c9Draft) = false →
      generateContent c9Struct (some c9Draft) none = (some (contentClean c9Draft), none)) ∧
    (contentNeedsRetry (parseTotalFromStructure c9Struct) (contentClean c9Draft) = true →
      generateContent c9Struct (some c9Draft) none =
        (match (none : Option String) with
         | some s2 => if s2 = "" then (some (contentClean c9Draft), none)
                      else (some (contentClean s2), none)
         | none => (some (contentClean c9Draft), none))) ∧
    (generateContent c9Struct (some c9Draft) none).2 = none) :=
  ⟨by decide, by decide, C9_amended c9Struct none c9Draft (by decide) (by decide)⟩

/-- Claim C10: the plagiarism and AI-likeness checks are constant
placeholders.  On empty input each returns an error and no result; on any
non-empty input `check_plagiarism` returns similarity 5.2 (26/5) with a
report containing `Status: PASSED`, and `check_ai_content` returns 12.5
(25/2) with a report containing `Status: ACCEPTABLE`, the word count of the
input being the only input-dependent part of either report. -/
theorem C10_placeholder_checks (s : String) :
    (s = "" →
      checkPlagiarism s = (none, some "Content text is required for plagiarism check.") ∧
      checkAiContent s = (none, some "Content text is required for AI detection check.")) ∧
    (¬ s = "" →
      checkPlagiarism s
          = (some { report := plagReportText (countSplit s),
                    similarity_percentage := Rat.divInt 26 5 }, none) ∧
      checkAiContent s
          = (some { report := aiReportText (countSplit s),
                    ai_percentage := Rat.divInt 25 2 }, none) ∧
      Rat.divInt 26 5 = (5.2 : ℚ) ∧ Rat.divInt 25 2 = (12.5 : ℚ) ∧
      strContains (plagReportText (countSplit s)) "Status: PASSED" = true ∧
      strContains (aiReportText (countSplit s)) "Status: ACCEPTABLE" = true) := by
  constructor
  · intro h
    subst h
    exact ⟨by decide, by decide⟩
  · intro h
    refine ⟨?_, ?_, by norm_num [Rat.divInt_eq_div], by norm_num [Rat.divInt_eq_div],
      plag_report_contains_passed _, ai_report_contains_acceptable _⟩
    · simp only [checkPlagiarism, if_neg h]
    · simp only [checkAiContent, if_neg h]

/-! ### Lemmas for the regeneration gate (claim C1) -/

theorem foldl_max_init_le (l : List Nat) (a : Nat) : a ≤ l.foldl max a := by
  induction l generalizing a with
  | nil => exact le_refl a
  | cons y ys ih => exact le_trans (le_max_left a y) (ih (max a y))

theorem foldl_max_le_of_mem (l : List Nat) (a x : Nat) (h : x ∈ l) :
    x ≤ l.foldl max a := by
  induction l generalizing a with
  | nil => simp at h
  | cons y ys ih =>
    rcases List.mem_cons.mp h with h | h
    · subst h
      exact le_trans (le_max_right a x) (foldl_max_init_le ys (max a x))
    · exact ih (max a y) h

/-- Claim C1: when any of the seven artifacts of a job records a
regeneration/generation count of 3 or more, the usage gate (the maximum
count across all seven) reads at least 3 and `run_marketing_pipeline`
returns the budget-exceeded error without touching the job. -/
theorem C1_budget_gate (job : MarketingJob) (actor : String) (now : Nat)
    (rSummary : Option SummaryData × Option String)
    (rStructure : Option String × Option String)
    (rContent : Option String × Option String)
    (rRefs : Option RefData × Option String)
    (rFull : Option String × Option String)
    (h : (∃ a, job.summary = some a ∧ 3 ≤ a.regeneration_count) ∨
         (∃ a, job.job_structure = some a ∧ 3 ≤ a.regeneration_count) ∨
         (∃ a, job.generated_content = some a ∧ 3 ≤ a.regeneration_count) ∨
         (∃ a, job.references = some a ∧ 3 ≤ a.regeneration_count) ∨
         (∃ a, job.full_content = some a ∧ 3 ≤ a.regeneration_count) ∨
         (∃ a, job.plag_report = some a ∧ 3 ≤ a.generation_count) ∨
         (∃ a, job.ai_report = some a ∧ 3 ≤ a.generation_count)) :
    3 ≤ getRegenerationUsage job ∧
    runMarketingPipeline job actor now rSummary rStructure rContent rRefs rFull
      = (⟨false, [], some "Generation limit reached (3 regenerations used)."⟩, job) := by
  have hge : 3 ≤ getRegenerationUsage job := by
    simp only [getRegenerationUsage]
    rcases h with ⟨a, ha, h3⟩ | ⟨a, ha, h3⟩ | ⟨a, ha, h3⟩ | ⟨a, ha, h3⟩ |
      ⟨a, ha, h3⟩ | ⟨a, ha, h3⟩ | ⟨a, ha, h3⟩ <;>
      exact le_trans h3 (foldl_max_le_of_mem _ 0 _ (by simp [ha]))
  refine ⟨hge, ?_⟩
  unfold runMarketingPipeline
  rw [if_pos (show getRegenerationUsage job ≥ 3 from hge)]
  rfl

/-- Witness for C1: the gate fires on a job whose summary used 3 regenerations. -/
theorem C1_budget_gate_witness :
    ((∃ a, c1Job.summary = some a ∧ 3 ≤ a.regeneration_count) ∨
     (∃ a, c1Job.job_structure = some a ∧ 3 ≤ a.regeneration_count) ∨
     (∃ a, c1Job.generated_content = some a ∧ 3 ≤ a.regeneration_count) ∨
     (∃ a, c1Job.references = some a ∧ 3 ≤ a.regeneration_count) ∨
     (∃ a, c1Job.full_content = some a ∧ 3 ≤ a.regeneration_count) ∨
     (∃ a, c1Job.plag_report = some a ∧ 3 ≤ a.generation_count) ∨
     (∃ a, c1Job.ai_report = some a ∧ 3 ≤ a.generation_count)) ∧
    (3 ≤ getRegenerationUsage c1Job ∧
     runMarketingPipeline c1Job "marketing" 0 (none, none) (none, none) (none, none)
        (none, none) (none, none)
       = (⟨false, [], some "Generation limit reached (3 regenerations used)."⟩, c1Job)) :=
  ⟨Or.inl ⟨_, rfl, by decide⟩,
   C1_budget_gate c1Job "marketing" 0 (none, none) (none, none) (none, none)
     (none, none) (none, none) (Or.inl ⟨_, rfl, by decide⟩)⟩

/-! ### Lemmas for status monotonicity (claim C2) -/

theorem findIdx_opt_lt_length {α : Type} (p : α → Bool) (l : List α) (i : Nat)
    (h : l.findIdx? p = some i) : i < l.length := by
  induction l generalizing i with
  | nil => simp [List.findIdx?] at h
  | cons x xs ih =>
    rw [List.findIdx?_cons, List.findIdx?_succ] at h
    split at h
    · cases h
      simp
    · cases hx : xs.findIdx? p with
      | none => rw [hx] at h; simp at h
      | some j =>
        rw [hx] at h
        simp only [Option.map_some'] at h
        cases h
        have := ih j hx
        simp only [List.length_cons]
        omega

theorem statusRank_le_twelve (s : String) : statusRank s ≤ 12 := by
  unfold statusRank
  cases h : STATUS_SEQUENCE.findIdx? (fun t => t = upperStr s) with
  | none => simp only []; omega
  | some i =>
    have hlt := findIdx_opt_lt_length _ _ i h
    have hlen : STATUS_SEQUENCE.length = 13 := rfl
    simp only []
    omega

theorem maxStatus_rank_mono (cur cand : String) :
    statusRank cur ≤ statusRank (maxStatus cur cand) := by
  unfold maxStatus
  split
  next hlt => exact le_of_lt hlt
  next => exact le_refl _

theorem advanceLoop_rank_mono (l : List (Bool × String)) (base : String) :
    statusRank base ≤ statusRank (advanceLoop base l) := by
  induction l generalizing base with
  | nil => exact le_refl _
  | cons p rest ih =>
    rw [advanceLoop]
    refine le_trans ?_ (ih _)
    split
    · exact maxStatus_rank_mono _ _
    · exact le_refl _

theorem statusRank_le_base (s : String) :
    statusRank s ≤ statusRank (if statusMem (upperStr (if s = "" then "PENDING" else s))
      then upperStr (if s = "" then "PENDING" else s) else "PENDING") := by
  by_cases hs : s = ""
  · subst hs
    decide
  · rw [if_neg hs]
    by_cases hm : statusMem (upperStr s) = true
    · rw [if_pos hm]
      have hmem : upperStr s ∈ STATUS_SEQUENCE := by
        simpa [statusMem] using List.elem_iff.mp hm
      have hfix : upperStr (upperStr s) = upperStr s := by
        simp only [STATUS_SEQUENCE, List.mem_cons, List.not_mem_nil, or_false] at hmem
        rcases hmem with h | h | h | h | h | h | h | h | h | h | h | h | h <;>
          rw [h] <;> decide
      unfold statusRank
      rw [hfix]
    · rw [if_neg hm]
      have h1 : statusRank s = -1 := by
        unfold statusRank
        have hnone : STATUS_SEQUENCE.findIdx? (fun t => t = upperStr s) = none := by
          rw [List.findIdx?_eq_none_iff]
          intro t ht
          simp only [decide_eq_false_iff_not]
          intro he
          exact hm (by simp [statusMem, List.elem_iff, ← he, ht])
        rw [hnone]
      rw [h1]
      decide

theorem syncJobStatus_rank_mono (j : MarketingJob) :
    statusRank j.status ≤ statusRank (syncJobStatus j).1.status := by
  simp only [syncJobStatus]
  by_cases hrej : upperStr (if j.status = "" then "PENDING" else j.status) = "REJECTED"
  · rw [if_pos hrej]
  · rw [if_neg hrej]
    set ns := (if j.is_approved = true then "APPROVED"
      else advanceLoop
        (if statusMem (upperStr (if j.status = "" then "PENDING" else j.status)) = true
          then upperStr (if j.status = "" then "PENDING" else j.status) else "PENDING")
        (approvedPairs j)) with hns
    have hle : statusRank j.status ≤ statusRank ns := by
      rw [hns]
      by_cases hap : j.is_approved = true
      · rw [if_pos hap]
        have h12 : statusRank "APPROVED" = 12 := by decide
        have hlt := statusRank_le_twelve j.status
        omega
      · rw [if_neg hap]
        exact le_trans (statusRank_le_base j.status) (advanceLoop_rank_mono _ _)
    by_cases hne : j.status ≠ ns
    · rw [if_pos hne]
      exact hle
    · rw [if_neg hne]

theorem syncJobStatus_rejected (j : MarketingJob) (h : upperStr j.status = "REJECTED") :
    syncJobStatus j = (j, j.status) := by
  have hne : ¬ j.status = "" := by
    intro he
    rw [he] at h
    exact absurd h (by decide)
  simp only [syncJobStatus, if_neg hne]
  rw [if_pos h]

theorem runSyncs_rank_mono (envs : List ApprovalEnv) (j : MarketingJob) :
    statusRank j.status ≤ statusRank (runSyncs j envs).status := by
  induction envs generalizing j with
  | nil => exact le_refl _
  | cons e rest ih =>
    rw [runSyncs]
    exact le_trans (syncJobStatus_rank_mono (applyEnv e j)) (ih _)

theorem runSyncs_rejected (envs : List ApprovalEnv) (j : MarketingJob)
    (h : upperStr j.status = "REJECTED") : (runSyncs j envs).status = j.status := by
  induction envs generalizing j with
  | nil => rfl
  | cons e rest ih =>
    rw [runSyncs, syncJobStatus_rejected (applyEnv e j) h]
    exact ih (applyEnv e j) h

theorem canRegenS_of_usage (job : MarketingJob) (h : getRegenerationUsage job < 3) :
    canRegenS job.summary = true := by
  cases hsm : job.summary with
  | none => rfl
  | some a =>
    have hle : a.regeneration_count ≤ getRegenerationUsage job := by
      simp only [getRegenerationUsage]
      exact foldl_max_le_of_mem _ 0 _ (by simp [hsm])
    simp only [canRegenS]
    exact decide_eq_true (by omega)

theorem canRegenSt_of_usage (job : MarketingJob) (h : getRegenerationUsage job < 3) :
    canRegenSt job.job_structure = true := by
  cases hsm : job.job_structure with
  | none => rfl
  | some a =>
    have hle : a.regeneration_count ≤ getRegenerationUsage job := by
      simp only [getRegenerationUsage]
      exact foldl_max_le_of_mem _ 0 _ (by simp [hsm])
    simp only [canRegenSt]
    exact decide_eq_true (by omega)

theorem canRegenC_of_usage (job : MarketingJob) (h : getRegenerationUsage job < 3) :
    canRegenC job.generated_content = true := by
  cases hsm : job.generated_content with
  | none => rfl
  | some a =>
    have hle : a.regeneration_count ≤ getRegenerationUsage job := by
      simp only [getRegenerationUsage]
      exact foldl_max_le_of_mem _ 0 _ (by simp [hsm])
    simp only [canRegenC]
    exact decide_eq_true (by omega)

/-- Claim C2: across one `sync_job_status` call, and across any sequence of
calls interleaved with arbitrary artifact/approval changes, the rank of the
job's recorded status in the fixed 13-status order never decreases; and a
job whose status reads REJECTED is returned unchanged by every call. -/
theorem C2_status_monotone (j : MarketingJob) (envs : List ApprovalEnv) :
    statusRank j.status ≤ statusRank (syncJobStatus j).1.status ∧
    statusRank j.status ≤ statusRank (runSyncs j envs).status ∧
    (upperStr j.status = "REJECTED" →
      syncJobStatus j = (j, j.status) ∧ (runSyncs j envs).status = j.status) :=
  ⟨syncJobStatus_rank_mono j, runSyncs_rank_mono envs j,
   fun h => ⟨syncJobStatus_rejected j h, runSyncs_rejected envs j h⟩⟩

/-- Claim C8: when the CONTENT stage fails (generation exception, explicit
error, or empty result) after SUMMARY and STRUCTURE succeeded, the pipeline
returns failure with exactly the two prior success strings plus the stage-3
error, the saved job carries only the new summary and structure artifacts at
status JOB_STRUCTURE, and no later stage runs: the result does not depend on
the references/full-content responses, and the content, references, full
content, plagiarism and AI report rows are untouched. -/
theorem C8_content_failure_stops (job : MarketingJob) (actor : String) (now : Nat)
    (d : SummaryData) (st : String)
    (rContent : Option String × Option String)
    (rRefs : Option RefData × Option String)
    (rFull : Option String × Option String)
    (husage : getRegenerationUsage job < 3)
    (hst : ¬ st = "")
    (hc : rContent.1 = none ∨
      (∃ ct, rContent.1 = some ct ∧ (pyTruthyS rContent.2 = true ∨ ct = ""))) :
    runMarketingPipeline job actor now (some d, none) (some st, none) rContent rRefs rFull
      = (⟨false, ["Job Summary generated", "Job Structure generated"],
          some (pyOrStr rContent.2 "Failed to generate Content.")⟩,
         { job with
             summary := some (mkSummaryArt job.summary d actor now),
             job_structure := some (mkStructureArt job.job_structure st
               (mkSummaryArt job.summary d actor now).word_count actor now),
             status := "JOB_STRUCTURE" }) ∧
    (runMarketingPipeline job actor now (some d, none) (some st, none) rContent rRefs rFull).2.generated_content
      = job.generated_content ∧
    (runMarketingPipeline job actor now (some d, none) (some st, none) rContent rRefs rFull).2.references
      = job.references ∧
    (runMarketingPipeline job actor now (some d, none) (some st, none) rContent rRefs rFull).2.full_content
      = job.full_content ∧
    (runMarketingPipeline job actor now (some d, none) (some st, none) rContent rRefs rFull).2.plag_report
      = job.plag_report ∧
    (runMarketingPipeline job actor now (some d, none) (some st, none) rContent rRefs rFull).2.ai_report
      = job.ai_report := by
  have hS := canRegenS_of_usage job husage
  have hSt := canRegenSt_of_usage job husage
  have hC := canRegenC_of_usage job husage
  have hmain : runMarketingPipeline job actor now (some d, none) (some st, none) rContent rRefs rFull
      = (⟨false, ["Job Summary generated", "Job Structure generated"],
          some (pyOrStr rContent.2 "Failed to generate Content.")⟩,
         { job with
             summary := some (mkSummaryArt job.summary d actor now),
             job_structure := some (mkStructureArt job.job_structure st
               (mkSummaryArt job.summary d actor now).word_count actor now),
             status := "JOB_STRUCTURE" }) := by
    simp only [runMarketingPipeline]
    rw [if_neg (by omega : ¬ getRegenerationUsage job ≥ 3)]
    rw [if_neg (not_not_intro hS)]
    simp only [pyTruthyS]
    rw [if_neg (by decide : ¬ (match (none : Option String) with
      | some s => decide ¬ s = "" | none => false) = true)]
    rw [if_neg (not_not_intro hSt)]
    rw [if_neg (by simp [hst] : ¬ ((match (none : Option String) with
      | some s => decide ¬ s = "" | none => false) || decide (st = "")) = true)]
    rw [if_neg (not_not_intro hC)]
    rcases hc with hnone | ⟨ct, hcs, hbad⟩
    · rw [hnone]
      exact rfl
    · rw [hcs]
      simp only []
      rw [if_pos (by
        simp only [Bool.or_eq_true]
        exact hbad.imp id (fun h2 => decide_eq_true h2))]
      exact rfl
  rw [hmain]
  exact ⟨rfl, rfl, rfl, rfl, rfl, rfl⟩

/-- Witness for C8: a fresh job whose content generation raises. -/
theorem C8_content_failure_stops_witness :
    getRegenerationUsage c8Job < 3 ∧
    ¬ ("1. A - 10 words" : String) = "" ∧
    (((none, none) : Option String × Option String).1 = none ∨
      (∃ ct, ((none, none) : Option String × Option String).1 = some ct ∧
        (pyTruthyS ((none, none) : Option String × Option String).2 = true ∨ ct = ""))) ∧
    runMarketingPipeline c8Job "marketing" 0 (some c8Data, none)
        (some "1. A - 10 words", none) (none, none) (none, none) (none, none)
      = (⟨false, ["Job Summary generated", "Job Structure generated"],
          some (pyOrStr ((none, none) : Option String × Option String).2
            "Failed to generate Content.")⟩,
         { c8Job with
             summary := some (mkSummaryArt c8Job.summary c8Data "marketing" 0),
             job_structure := some (mkStructureArt c8Job.job_structure "1. A - 10 words"
               (mkSummaryArt c8Job.summary c8Data "marketing" 0).word_count "marketing" 0),
             status := "JOB_STRUCTURE" }) :=
  ⟨by decide, by decide, Or.inl rfl,
   (C8_content_failure_stops c8Job "marketing" 0 c8Data "1. A - 10 words"
     (none, none) (none, none) (none, none) (by decide) (by decide) (Or.inl rfl)).1⟩

end Pipeline
